import Mathlib

/-!
# shared_mutex: a named, process-shared, robust mutex

A shallow embedding of `shared_mutex.c` and of the C++ wrapper `shared_mutex.hpp`.

The C code is a thin layer over POSIX calls (`shm_open`, `ftruncate`, `mmap`, `munmap`,
`close`, `shm_unlink`, `pthread_mutex*`).  The platform is an explicit state `World`
that every call threads through.  Each platform call takes an optional injected
error: with `none` the call behaves as POSIX describes it on the current state, with
`some e` it fails with error `e` and has no effect.  Every call is appended to
`World.trace` together with the value it returned.

Conventions of the embedding
* `errno` is a field of the world; `shm_open`, `ftruncate`, `mmap`, `munmap`, `close`
  and `shm_unlink` set it when they fail, the `pthread_*` calls return their error.
* a pointer is `NULL`, `MAP_FAILED` or a mapped address;
* `malloc`, `memset`, `strcpy`, `free` and `perror` are not platform calls of the
  model: allocation succeeds, and a freed handle is the value `none`;
* a `pthread_*` call on a pointer that is not mapped, or on memory that holds no
  initialised mutex, is undefined in C; the model gives it the status `EINVAL` and
  no effect;
* `pthread_mutex_lock` on a mutex held by a live owner, or on a mutex that is not
  robust and whose owner died holding it, does not return: `none`.
-/

namespace Shm

/-! ## Error numbers -/

/-- An error number: a positive integer, as in `errno.h`. -/
structure Errno where
  code : Nat
  pos : code ≠ 0
deriving DecidableEq

def EPERM : Nat := 1
def ENOENT : Nat := 2
def EBADF : Nat := 9
def EACCES : Nat := 13
def EINVAL : Nat := 22
def ENAMETOOLONG : Nat := 36
def EOWNERDEAD : Nat := 130
def ENOTRECOVERABLE : Nat := 131

/-- `EACCES` as an injected error. -/
def Errno.eacces : Errno := ⟨EACCES, by decide⟩

/-- `EINVAL` as an injected error. -/
def Errno.einval : Errno := ⟨EINVAL, by decide⟩

/-- `ENAMETOOLONG` as an injected error. -/
def Errno.enametoolong : Errno := ⟨ENAMETOOLONG, by decide⟩

/-- The size of `pthread_mutex_t` (x86-64 Linux); no property depends on the value. -/
def sizeof_pthread_mutex_t : Nat := 40

/-! ## Platform state -/

/-- A pointer value: `NULL`, `MAP_FAILED` (that is `(void *) -1`) or an address. -/
inductive Ptr
  | null
  | map_failed
  | addr (a : Nat)
deriving DecidableEq

/-- The logical state of an initialised mutex. -/
inductive LockState
  | unlocked
  | locked (owner : Nat)
  | ownerDead
  | inconsistent (owner : Nat)
  | notRecoverable
deriving DecidableEq

/-- The contents of the `pthread_mutex_t` stored in a segment. -/
inductive PMutex
  | raw
  | live (pshared robust : Bool) (st : LockState)
  | destroyed
deriving DecidableEq

/-- A shared memory object. -/
structure Segment where
  size : Nat
  mtx : PMutex
deriving DecidableEq

/-- The attribute object `pthread_mutexattr_t`. -/
structure MutexAttr where
  pshared : Bool
  robust : Bool
deriving DecidableEq

/-- The platform functions, as they appear in the trace. -/
inductive Fn
  | shm_open (creat : Bool)
  | ftruncate
  | mmap
  | munmap
  | close
  | shm_unlink
  | pthread_mutexattr_init
  | pthread_mutexattr_setpshared
  | pthread_mutexattr_setrobust
  | pthread_mutex_init
  | pthread_mutex_destroy
  | pthread_mutex_lock
  | pthread_mutex_consistent
  | pthread_mutex_unlock
deriving DecidableEq

/-- One platform call in the trace: the function, the value it returned
(`mmap`: 0 for an address, -1 for `MAP_FAILED`) and the value of `errno` after it. -/
structure Call where
  fn : Fn
  ret : Int
  err : Int
deriving DecidableEq

/-- The platform: named shared memory objects, the objects themselves, the
descriptor table, the mappings, `errno` and the trace of calls. -/
structure World where
  names : String → Option Nat
  objs : Nat → Segment
  fds : Int → Option Nat
  maps : Nat → Option Nat
  nextObj : Nat
  nextFd : Nat
  nextAddr : Nat
  errno : Int
  trace : List Call

/-- Point update of a table. -/
def set {α β : Type} [DecidableEq α] (f : α → β) (k : α) (v : β) : α → β :=
  fun x => if x = k then v else f x

/-- The object a pointer is mapped to. -/
def World.deref (w : World) (p : Ptr) : Option Nat :=
  match p with
  | .addr a => w.maps a
  | _ => none

/-- The mutex a pointer points to, when the pointer is mapped. -/
def World.mutexAt (w : World) (p : Ptr) : Option PMutex :=
  (w.deref p).map fun id => (w.objs id).mtx

/-- Record a call. -/
def World.log (w : World) (fn : Fn) (ret : Int) : World :=
  { w with trace := w.trace ++ [⟨fn, ret, w.errno⟩] }

/-- Whether a call succeeded: `shm_open` returned a descriptor, `mmap` an address, every
other function 0. -/
def Call.succeeded (c : Call) : Bool :=
  match c.fn with
  | .shm_open _ => decide (c.ret ≠ -1)
  | _ => decide (c.ret = 0)

/-- The calls made between the world `w` and the later world `w1`. -/
def World.callsSince (w1 w : World) : List Call :=
  w1.trace.drop w.trace.length

/-- A platform with no object, descriptor or mapping. -/
def World.empty : World where
  names := fun _ => none
  objs := fun _ => ⟨0, .raw⟩
  fds := fun _ => none
  maps := fun _ => none
  nextObj := 0
  nextFd := 3
  nextAddr := 4096
  errno := 0
  trace := []

/-! ## Platform calls -/

/-- `shm_open(name, O_RDWR, 0660)` (`creat = false`) and
`shm_open(name, O_RDWR|O_CREAT, 0660)` (`creat = true`). -/
def shm_open (w : World) (name : String) (creat : Bool) (fault : Option Errno) : World × Int :=
  match fault with
  | some e => (({ w with errno := e.code } : World).log (.shm_open creat) (-1), -1)
  | none =>
    match w.names name with
    | some id =>
      (({ w with fds := set w.fds w.nextFd (some id), nextFd := w.nextFd + 1 } : World).log
        (.shm_open creat) w.nextFd, w.nextFd)
    | none =>
      if creat then
        (({ w with
            names := set w.names name (some w.nextObj)
            objs := set w.objs w.nextObj ⟨0, .raw⟩
            nextObj := w.nextObj + 1
            fds := set w.fds w.nextFd (some w.nextObj)
            nextFd := w.nextFd + 1 } : World).log (.shm_open creat) w.nextFd, w.nextFd)
      else
        (({ w with errno := ENOENT } : World).log (.shm_open creat) (-1), -1)

/-- `ftruncate(fd, length)`. -/
def ftruncate (w : World) (fd : Int) (length : Nat) (fault : Option Errno) : World × Int :=
  match fault with
  | some e => (({ w with errno := e.code } : World).log .ftruncate (-1), -1)
  | none =>
    match w.fds fd with
    | some id =>
      (({ w with objs := set w.objs id { w.objs id with size := length } } : World).log
        .ftruncate 0, 0)
    | none => (({ w with errno := EBADF } : World).log .ftruncate (-1), -1)

/-- `mmap(NULL, sizeof(pthread_mutex_t), PROT_READ|PROT_WRITE, MAP_SHARED, fd, 0)`. -/
def mmap (w : World) (fd : Int) (fault : Option Errno) : World × Ptr :=
  match fault with
  | some e => (({ w with errno := e.code } : World).log .mmap (-1), .map_failed)
  | none =>
    match w.fds fd with
    | some id =>
      (({ w with maps := set w.maps w.nextAddr (some id), nextAddr := w.nextAddr + 1 } : World).log
        .mmap 0, .addr w.nextAddr)
    | none => (({ w with errno := EBADF } : World).log .mmap (-1), .map_failed)

/-- `munmap(ptr, sizeof(pthread_mutex_t))`. -/
def munmap (w : World) (p : Ptr) (fault : Option Errno) : World × Int :=
  match fault with
  | some e => (({ w with errno := e.code } : World).log .munmap (-1), -1)
  | none =>
    match p with
    | .addr a =>
      match w.maps a with
      | some _ => (({ w with maps := set w.maps a none } : World).log .munmap 0, 0)
      | none => (({ w with errno := EINVAL } : World).log .munmap (-1), -1)
    | _ => (({ w with errno := EINVAL } : World).log .munmap (-1), -1)

/-- `close(fd)`. -/
def close (w : World) (fd : Int) (fault : Option Errno) : World × Int :=
  match fault with
  | some e => (({ w with errno := e.code } : World).log .close (-1), -1)
  | none =>
    match w.fds fd with
    | some _ => (({ w with fds := set w.fds fd none } : World).log .close 0, 0)
    | none => (({ w with errno := EBADF } : World).log .close (-1), -1)

/-- `shm_unlink(name)`. -/
def shm_unlink (w : World) (name : String) (fault : Option Errno) : World × Int :=
  match fault with
  | some e => (({ w with errno := e.code } : World).log .shm_unlink (-1), -1)
  | none =>
    match w.names name with
    | some _ => (({ w with names := set w.names name none } : World).log .shm_unlink 0, 0)
    | none => (({ w with errno := ENOENT } : World).log .shm_unlink (-1), -1)

/-- `pthread_mutexattr_init(&attr)`: the status and the attribute object. -/
def pthread_mutexattr_init (w : World) (attr : MutexAttr) (fault : Option Errno) :
    World × Int × MutexAttr :=
  match fault with
  | some e => (w.log .pthread_mutexattr_init e.code, e.code, attr)
  | none => (w.log .pthread_mutexattr_init 0, 0, ⟨false, false⟩)

/-- `pthread_mutexattr_setpshared(&attr, PTHREAD_PROCESS_SHARED)`. -/
def pthread_mutexattr_setpshared (w : World) (attr : MutexAttr) (fault : Option Errno) :
    World × Int × MutexAttr :=
  match fault with
  | some e => (w.log .pthread_mutexattr_setpshared e.code, e.code, attr)
  | none => (w.log .pthread_mutexattr_setpshared 0, 0, { attr with pshared := true })

/-- `pthread_mutexattr_setrobust(&attr, PTHREAD_MUTEX_ROBUST)`. -/
def pthread_mutexattr_setrobust (w : World) (attr : MutexAttr) (fault : Option Errno) :
    World × Int × MutexAttr :=
  match fault with
  | some e => (w.log .pthread_mutexattr_setrobust e.code, e.code, attr)
  | none => (w.log .pthread_mutexattr_setrobust 0, 0, { attr with robust := true })

/-- Overwrite the mutex stored in an object. -/
def World.setMutex (w : World) (id : Nat) (m : PMutex) : World :=
  { w with objs := set w.objs id { w.objs id with mtx := m } }

/-- `pthread_mutex_init(ptr, &attr)`. -/
def pthread_mutex_init (w : World) (p : Ptr) (attr : MutexAttr) (fault : Option Errno) :
    World × Int :=
  match fault with
  | some e => (w.log .pthread_mutex_init e.code, e.code)
  | none =>
    match w.deref p with
    | some id =>
      ((w.setMutex id (.live attr.pshared attr.robust .unlocked)).log .pthread_mutex_init 0, 0)
    | none => (w.log .pthread_mutex_init EINVAL, EINVAL)

/-- `pthread_mutex_destroy(ptr)`. -/
def pthread_mutex_destroy (w : World) (p : Ptr) (fault : Option Errno) : World × Int :=
  match fault with
  | some e => (w.log .pthread_mutex_destroy e.code, e.code)
  | none =>
    match w.deref p with
    | some id =>
      match (w.objs id).mtx with
      | .live _ _ _ => ((w.setMutex id .destroyed).log .pthread_mutex_destroy 0, 0)
      | _ => (w.log .pthread_mutex_destroy EINVAL, EINVAL)
    | none => (w.log .pthread_mutex_destroy EINVAL, EINVAL)

/-- `pthread_mutex_lock(ptr)` called by thread `self`; `none` when the call does not
return: the mutex is held by a live owner, or it is not robust and its owner died
holding it. -/
def pthread_mutex_lock (w : World) (p : Ptr) (self : Nat) (fault : Option Errno) :
    Option (World × Int) :=
  match fault with
  | some e => some (w.log .pthread_mutex_lock e.code, e.code)
  | none =>
    match w.deref p with
    | some id =>
      match (w.objs id).mtx with
      | .live ps rb .unlocked =>
        some ((w.setMutex id (.live ps rb (.locked self))).log .pthread_mutex_lock 0, 0)
      | .live ps true .ownerDead =>
        some ((w.setMutex id (.live ps true (.inconsistent self))).log
          .pthread_mutex_lock EOWNERDEAD, EOWNERDEAD)
      | .live _ false .ownerDead => none
      | .live _ _ .notRecoverable =>
        some (w.log .pthread_mutex_lock ENOTRECOVERABLE, ENOTRECOVERABLE)
      | .live _ _ (.locked _) => none
      | .live _ _ (.inconsistent _) => none
      | _ => some (w.log .pthread_mutex_lock EINVAL, EINVAL)
    | none => some (w.log .pthread_mutex_lock EINVAL, EINVAL)

/-- `pthread_mutex_consistent(ptr)` called by thread `self`. -/
def pthread_mutex_consistent (w : World) (p : Ptr) (self : Nat) (fault : Option Errno) :
    World × Int :=
  match fault with
  | some e => (w.log .pthread_mutex_consistent e.code, e.code)
  | none =>
    match w.deref p with
    | some id =>
      match (w.objs id).mtx with
      | .live ps rb (.inconsistent o) =>
        if o = self then
          ((w.setMutex id (.live ps rb (.locked self))).log .pthread_mutex_consistent 0, 0)
        else (w.log .pthread_mutex_consistent EINVAL, EINVAL)
      | _ => (w.log .pthread_mutex_consistent EINVAL, EINVAL)
    | none => (w.log .pthread_mutex_consistent EINVAL, EINVAL)

/-- `pthread_mutex_unlock(ptr)` called by thread `self`. -/
def pthread_mutex_unlock (w : World) (p : Ptr) (self : Nat) (fault : Option Errno) :
    World × Int :=
  match fault with
  | some e => (w.log .pthread_mutex_unlock e.code, e.code)
  | none =>
    match w.deref p with
    | some id =>
      match (w.objs id).mtx with
      | .live ps rb (.locked o) =>
        if o = self then
          ((w.setMutex id (.live ps rb .unlocked)).log .pthread_mutex_unlock 0, 0)
        else (w.log .pthread_mutex_unlock EPERM, EPERM)
      | .live ps rb (.inconsistent o) =>
        if o = self then
          ((w.setMutex id (.live ps rb .notRecoverable)).log .pthread_mutex_unlock 0, 0)
        else (w.log .pthread_mutex_unlock EPERM, EPERM)
      | .live _ _ _ => (w.log .pthread_mutex_unlock EPERM, EPERM)
      | _ => (w.log .pthread_mutex_unlock EINVAL, EINVAL)
    | none => (w.log .pthread_mutex_unlock EINVAL, EINVAL)

/-! ## `shared_mutex.c` -/

/-- The handle: `struct shared_mutex`.  `name = none` is the `NULL` name pointer. -/
structure shared_mutex where
  ptr : Ptr
  shm_fd : Int
  name : Option String
  created : Int
deriving DecidableEq

/-- The injected errors of the platform calls of `shared_mutex_init`, in call order. -/
structure InitFaults where
  shm_open : Option Errno
  shm_open_creat : Option Errno
  ftruncate : Option Errno
  mmap : Option Errno
  attr_init : Option Errno
  setpshared : Option Errno
  setrobust : Option Errno
  mutex_init : Option Errno

/-- No injected error. -/
def InitFaults.none : InitFaults := ⟨.none, .none, .none, .none, .none, .none, .none, .none⟩

/-- The part of `shared_mutex_init` that runs when `mutex->created` is set:
attribute setup and `pthread_mutex_init`; then the assignment of `ptr` and `name`. -/
def shared_mutex_init_primitive (w : World) (mutex : shared_mutex) (mutex_ptr : Ptr)
    (name : String) (f : InitFaults) : World × shared_mutex :=
  if mutex.created ≠ 0 then
    let a1 := pthread_mutexattr_init w ⟨false, false⟩ f.attr_init
    if a1.2.1 ≠ 0 then (a1.1, mutex) else
    let a2 := pthread_mutexattr_setpshared a1.1 a1.2.2 f.setpshared
    if a2.2.1 ≠ 0 then (a2.1, mutex) else
    let a3 := pthread_mutexattr_setrobust a2.1 a2.2.2 f.setrobust
    let a4 := pthread_mutex_init a3.1 mutex_ptr a3.2.2 f.mutex_init
    if a4.2 ≠ 0 then (a4.1, mutex) else
    (a4.1, { mutex with ptr := mutex_ptr, name := some name })
  else
    (w, { mutex with ptr := mutex_ptr, name := some name })

/-- The part of `shared_mutex_init` after the open-or-create step. -/
def shared_mutex_init_map (w : World) (mutex : shared_mutex) (name : String)
    (f : InitFaults) : World × shared_mutex :=
  if mutex.shm_fd = -1 then (w, mutex) else
  let t := ftruncate w mutex.shm_fd sizeof_pthread_mutex_t f.ftruncate
  if t.2 ≠ 0 then (t.1, mutex) else
  let m := mmap t.1 mutex.shm_fd f.mmap
  if m.2 = .map_failed then (m.1, mutex) else
  shared_mutex_init_primitive m.1 mutex m.2 name f

/-- The first part of `shared_mutex_init`: the handle is allocated and zeroed, `errno` is
cleared, the segment is opened, and created when the open reported `ENOENT`. -/
def shared_mutex_init_open (w : World) (name : String) (f : InitFaults) :
    World × shared_mutex :=
  let mutex : shared_mutex := ⟨.null, 0, none, 0⟩
  let w0 : World := { w with errno := 0 }
  let o1 := shm_open w0 name false f.shm_open
  let mutex := { mutex with shm_fd := o1.2 }
  if o1.1.errno = ENOENT then
    let o2 := shm_open o1.1 name true f.shm_open_creat
    (o2.1, { mutex with shm_fd := o2.2, created := 1 })
  else
    (o1.1, mutex)

/-- The function `shared_mutex_init(name)`. -/
def shared_mutex_init (w : World) (name : String) (f : InitFaults) : World × shared_mutex :=
  let o := shared_mutex_init_open w name f
  shared_mutex_init_map o.1 o.2 name f

/-- The injected errors of the platform calls of `shared_mutex_close`. -/
structure CloseFaults where
  munmap : Option Errno
  close : Option Errno

/-- No injected error. -/
def CloseFaults.none : CloseFaults := ⟨.none, .none⟩

/-- The second half of `shared_mutex_close`, after `mutex->ptr = NULL`: close the
descriptor, then free the name and the handle (the handle becomes `none`). -/
def shared_mutex_close_fd (w : World) (mutex : shared_mutex) (f : CloseFaults) :
    World × Option shared_mutex × Int :=
  if mutex.shm_fd > -1 then
    let c := close w mutex.shm_fd f.close
    if c.2 ≠ 0 then (c.1, some mutex, -1) else (c.1, none, 0)
  else (w, none, 0)

/-- The function `shared_mutex_close(mutex)`: the world, what is left of the handle
(`none` once it is freed) and the status. -/
def shared_mutex_close (w : World) (mutex : shared_mutex) (f : CloseFaults) :
    World × Option shared_mutex × Int :=
  if mutex.ptr ≠ .null then
    let u := munmap w mutex.ptr f.munmap
    if u.2 ≠ 0 then (u.1, some mutex, -1) else
    shared_mutex_close_fd u.1 { mutex with ptr := .null } f
  else
    shared_mutex_close_fd w { mutex with ptr := .null } f

/-- The injected errors of the platform calls of `shared_mutex_destroy`. -/
structure DestroyFaults where
  mutex_destroy : Option Errno
  munmap : Option Errno
  close : Option Errno
  shm_unlink : Option Errno

/-- No injected error. -/
def DestroyFaults.none : DestroyFaults := ⟨.none, .none, .none, .none⟩

/-- The last step of `shared_mutex_destroy`, after `mutex->shm_fd = -1`: unlink the
name, then free the name and the handle. -/
def shared_mutex_destroy_unlink (w : World) (mutex : shared_mutex) (f : DestroyFaults) :
    World × Option shared_mutex × Int :=
  match mutex.name with
  | some n =>
    let r := shm_unlink w n f.shm_unlink
    if r.2 ≠ 0 then (r.1, some mutex, -1) else (r.1, none, 0)
  | none => (w, none, 0)

/-- The step of `shared_mutex_destroy` after `mutex->ptr = NULL`: close the descriptor. -/
def shared_mutex_destroy_fd (w : World) (mutex : shared_mutex) (f : DestroyFaults) :
    World × Option shared_mutex × Int :=
  if mutex.shm_fd > -1 then
    let c := close w mutex.shm_fd f.close
    if c.2 ≠ 0 then (c.1, some mutex, -1) else
    shared_mutex_destroy_unlink c.1 { mutex with shm_fd := -1 } f
  else shared_mutex_destroy_unlink w { mutex with shm_fd := -1 } f

/-- The step of `shared_mutex_destroy` after `pthread_mutex_destroy`: unmap. -/
def shared_mutex_destroy_unmap (w : World) (mutex : shared_mutex) (f : DestroyFaults) :
    World × Option shared_mutex × Int :=
  if mutex.ptr ≠ .null then
    let u := munmap w mutex.ptr f.munmap
    if u.2 ≠ 0 then (u.1, some mutex, -1) else
    shared_mutex_destroy_fd u.1 { mutex with ptr := .null } f
  else
    shared_mutex_destroy_fd w { mutex with ptr := .null } f

/-- The function `shared_mutex_destroy(mutex)`: the world, what is left of the handle
(`none` once it is freed) and the status. -/
def shared_mutex_destroy (w : World) (mutex : shared_mutex) (f : DestroyFaults) :
    World × Option shared_mutex × Int :=
  let d := pthread_mutex_destroy w mutex.ptr f.mutex_destroy
  let w1 : World := { d.1 with errno := d.2 }
  if d.2 ≠ 0 then (w1, some mutex, -1) else
  shared_mutex_destroy_unmap w1 mutex f

/-- The injected errors of the platform calls of `shared_mutex_lock`. -/
structure LockFaults where
  lock : Option Errno
  consistent : Option Errno

/-- No injected error. -/
def LockFaults.none : LockFaults := ⟨.none, .none⟩

/-- The function `shared_mutex_lock(mutex)` called by thread `self`; `none` when
`pthread_mutex_lock` does not return. -/
def shared_mutex_lock (w : World) (mutex : shared_mutex) (self : Nat) (f : LockFaults) :
    Option (World × Int) :=
  match pthread_mutex_lock w mutex.ptr self f.lock with
  | none => none
  | some l =>
    if l.2 = EOWNERDEAD then
      some (pthread_mutex_consistent l.1 mutex.ptr self f.consistent)
    else some l

/-- The function `shared_mutex_unlock(mutex)` called by thread `self`. -/
def shared_mutex_unlock (w : World) (mutex : shared_mutex) (self : Nat)
    (fault : Option Errno) : World × Int :=
  pthread_mutex_unlock w mutex.ptr self fault

/-- The function `shared_mutex_is_valid(mutex)`; `none` is the `NULL` handle. -/
def shared_mutex_is_valid (mutex : Option shared_mutex) : Bool :=
  match mutex with
  | none => false
  | some m => m.name.isSome && decide (m.shm_fd > -1) && decide (m.ptr ≠ .null)

/-- A call made through a handle by some thread: a lock or an unlock. -/
inductive Step
  | lock (self : Nat) (f : LockFaults)
  | unlock (self : Nat) (fault : Option Errno)

/-- Run one step through the handle; `none` when the lock does not return. -/
def Step.run (w : World) (mutex : shared_mutex) : Step → Option World
  | .lock self f => (shared_mutex_lock w mutex self f).map fun r => r.1
  | .unlock self fault => some (shared_mutex_unlock w mutex self fault).1

/-- Run a sequence of steps through the handle, one after the other. -/
def runSteps (w : World) (mutex : shared_mutex) : List Step → Option World
  | [] => some w
  | s :: rest => (s.run w mutex).bind fun w1 => runSteps w1 mutex rest

/-- The world after an optional `shared_mutex_close` of the handle. -/
def closeIf (w : World) (mutex : shared_mutex) : Option CloseFaults → World
  | none => w
  | some f => (shared_mutex_close w mutex f).1

/-! ## Interleavings of lock and unlock -/

/-- What the termination of thread `self` does to a mutex: a robust mutex that the
thread holds becomes owner-dead, every other mutex is left as it is (a mutex that is not
robust stays locked by the dead thread). -/
def PMutex.ownerDied (self : Nat) : PMutex → PMutex
  | .live ps true (.locked o) =>
    if o = self then .live ps true .ownerDead else .live ps true (.locked o)
  | .live ps true (.inconsistent o) =>
    if o = self then .live ps true .ownerDead else .live ps true (.inconsistent o)
  | m => m

/-- The platform after thread `self` terminated. -/
def World.threadDies (w : World) (self : Nat) : World :=
  { w with objs := fun id => { w.objs id with mtx := (w.objs id).mtx.ownerDied self } }

/-- One event of an interleaving on two handles `A` and `B`: thread `self` calls
`shared_mutex_lock` or `shared_mutex_unlock` through `A` (`viaB = false`) or through `B`
(`viaB = true`), or thread `self` terminates. -/
inductive Event
  | lock (viaB : Bool) (self : Nat) (f : LockFaults)
  | unlock (viaB : Bool) (self : Nat) (fault : Option Errno)
  | die (self : Nat)

/-- Run one event: the world after it and the status the call returned.  A lock that
does not return leaves the world as it is and has no status: the call is still pending,
and the thread may be granted the lock by a later lock event. -/
def Event.run (w : World) (hA hB : shared_mutex) : Event → World × Option Int
  | .lock viaB self f =>
    match shared_mutex_lock w (cond viaB hB hA) self f with
    | some r => (r.1, some r.2)
    | none => (w, none)
  | .unlock viaB self fault =>
    let r := shared_mutex_unlock w (cond viaB hB hA) self fault
    (r.1, some r.2)
  | .die self => (w.threadDies self, none)

/-- The holders after one more event, read off the calls and their statuses alone: a
lock that returned 0 makes the caller (with the handle used) a holder; an unlock that
returned 0 and the termination of a thread end what that thread holds. -/
def holdStep (hs : List (Bool × Nat)) : Event → Option Int → List (Bool × Nat)
  | .lock viaB self _, some s => if s = 0 then hs ++ [(viaB, self)] else hs
  | .unlock _ self _, some s => if s = 0 then hs.filter fun x => x.2 ≠ self else hs
  | .die self, _ => hs.filter fun x => x.2 ≠ self
  | _, _ => hs

/-- Run an interleaving from the world `w` and the holders `hs`: the world and the
holders after it. -/
def interleave (w : World) (hA hB : shared_mutex) (hs : List (Bool × Nat)) :
    List Event → World × List (Bool × Nat)
  | [] => (w, hs)
  | e :: rest =>
    interleave (e.run w hA hB).1 hA hB (holdStep hs e (e.run w hA hB).2) rest

/-- The handles the code can be given: the null handle, a handle returned by
`shared_mutex_init` (whatever the platform calls did; the platform accepts no empty
name, so the argument is not empty), and what a failed `shared_mutex_close` or
`shared_mutex_destroy` leaves of such a handle. -/
inductive Receivable : Option shared_mutex → Prop
  | null : Receivable none
  | init (w : World) (name : String) (f : InitFaults) (hname : name ≠ "") :
      Receivable (some (shared_mutex_init w name f).2)
  | close (w : World) (m m1 : shared_mutex) (f : CloseFaults) (hm : Receivable (some m))
      (hleft : (shared_mutex_close w m f).2.1 = some m1) : Receivable (some m1)
  | destroy (w : World) (m m1 : shared_mutex) (f : DestroyFaults) (hm : Receivable (some m))
      (hleft : (shared_mutex_destroy w m f).2.1 = some m1) : Receivable (some m1)

/-! ## `shared_mutex.hpp`

The wrapper holds a pointer `_rawMutex` to a handle.  Here the handles live in a heap:
a `shared_mutex_t` is `none` (the null pointer) or an address, and an address whose
handle was freed holds `none`.  Every call of a core function is recorded with the
pointer it was given and with whether that pointer was a live handle at the time; a call
through a null or freed pointer is undefined in C, the model records it, sets
`undefined` and changes nothing else. -/

/-- The functions of `shared_mutex.h` the wrapper calls. -/
inductive CoreFn
  | shared_mutex_close
  | shared_mutex_destroy
  | shared_mutex_lock
  | shared_mutex_unlock
  | shared_mutex_is_valid
deriving DecidableEq

/-- One call of a core function: the function, the pointer passed, and whether the
pointer was a live handle. -/
structure CoreCall where
  fn : CoreFn
  arg : Option Nat
  live : Bool
deriving DecidableEq

/-- The platform together with the heap of handles and the record of core calls. -/
structure Machine where
  world : World
  heap : Nat → Option shared_mutex
  nextHandle : Nat
  calls : List CoreCall
  undefined : Bool

/-- A machine on the empty platform with no handle allocated. -/
def Machine.empty : Machine := ⟨World.empty, fun _ => none, 1, [], false⟩

/-- The handle a pointer points to, when it is a live one. -/
def Machine.handle (m : Machine) (p : Option Nat) : Option shared_mutex :=
  p.bind m.heap

/-- Record a core call made through a null or freed pointer. -/
def Machine.bad (m : Machine) (fn : CoreFn) (p : Option Nat) : Machine :=
  { m with calls := m.calls ++ [⟨fn, p, false⟩], undefined := true }

/-- `shared_mutex_init(name)` returning a pointer to the allocated handle. -/
def Machine.shared_mutex_init (m : Machine) (name : String) (f : InitFaults) :
    Machine × Option Nat :=
  let r := Shm.shared_mutex_init m.world name f
  ({ m with world := r.1, heap := set m.heap m.nextHandle (some r.2),
            nextHandle := m.nextHandle + 1 }, some m.nextHandle)

/-- `shared_mutex_close(p)` through a pointer. -/
def Machine.shared_mutex_close (m : Machine) (p : Option Nat) (f : CloseFaults) :
    Machine × Int :=
  match p, m.handle p with
  | some a, some h =>
    let r := Shm.shared_mutex_close m.world h f
    ({ m with world := r.1, heap := set m.heap a r.2.1,
              calls := m.calls ++ [⟨.shared_mutex_close, p, true⟩] }, r.2.2)
  | _, _ => (m.bad .shared_mutex_close p, -1)

/-- `shared_mutex_destroy(p)` through a pointer. -/
def Machine.shared_mutex_destroy (m : Machine) (p : Option Nat) (f : DestroyFaults) :
    Machine × Int :=
  match p, m.handle p with
  | some a, some h =>
    let r := Shm.shared_mutex_destroy m.world h f
    ({ m with world := r.1, heap := set m.heap a r.2.1,
              calls := m.calls ++ [⟨.shared_mutex_destroy, p, true⟩] }, r.2.2)
  | _, _ => (m.bad .shared_mutex_destroy p, -1)

/-- `shared_mutex_lock(p)` through a pointer; `none` when the lock does not return. -/
def Machine.shared_mutex_lock (m : Machine) (p : Option Nat) (self : Nat) (f : LockFaults) :
    Option (Machine × Int) :=
  match m.handle p with
  | some h =>
    (Shm.shared_mutex_lock m.world h self f).map fun r =>
      ({ m with world := r.1, calls := m.calls ++ [⟨.shared_mutex_lock, p, true⟩] }, r.2)
  | none => some (m.bad .shared_mutex_lock p, -1)

/-- `shared_mutex_unlock(p)` through a pointer. -/
def Machine.shared_mutex_unlock (m : Machine) (p : Option Nat) (self : Nat)
    (fault : Option Errno) : Machine × Int :=
  match m.handle p with
  | some h =>
    let r := Shm.shared_mutex_unlock m.world h self fault
    ({ m with world := r.1, calls := m.calls ++ [⟨.shared_mutex_unlock, p, true⟩] }, r.2)
  | none => (m.bad .shared_mutex_unlock p, -1)

/-- `shared_mutex_is_valid(p)` through a pointer: the null pointer is tested for, a freed
one is not. -/
def Machine.shared_mutex_is_valid (m : Machine) (p : Option Nat) : Machine × Bool :=
  match p, m.handle p with
  | none, _ =>
    ({ m with calls := m.calls ++ [⟨.shared_mutex_is_valid, p, false⟩] },
      Shm.shared_mutex_is_valid none)
  | some _, some h =>
    ({ m with calls := m.calls ++ [⟨.shared_mutex_is_valid, p, true⟩] },
      Shm.shared_mutex_is_valid (some h))
  | some _, none => (m.bad .shared_mutex_is_valid p, false)

/-- The class `SharedMutex`: its only member is the pointer `_rawMutex`. -/
structure SharedMutex where
  _rawMutex : Option Nat
deriving DecidableEq

/-- The constructor `SharedMutex(name)`. -/
def SharedMutex.new (m : Machine) (name : String) (f : InitFaults) : Machine × SharedMutex :=
  let r := m.shared_mutex_init name f
  (r.1, ⟨r.2⟩)

/-- The member `lock()`. -/
def SharedMutex.lock (m : Machine) (o : SharedMutex) (self : Nat) (f : LockFaults) :
    Option (Machine × SharedMutex × Int) :=
  (m.shared_mutex_lock o._rawMutex self f).map fun r => (r.1, o, r.2)

/-- The member `unlock()`. -/
def SharedMutex.unlock (m : Machine) (o : SharedMutex) (self : Nat) (fault : Option Errno) :
    Machine × SharedMutex × Int :=
  let r := m.shared_mutex_unlock o._rawMutex self fault
  (r.1, o, r.2)

/-- The member `isValid()`. -/
def SharedMutex.isValid (m : Machine) (o : SharedMutex) : Machine × SharedMutex × Bool :=
  let r := m.shared_mutex_is_valid o._rawMutex
  (r.1, o, r.2)

/-- The member `close()`. -/
def SharedMutex.close (m : Machine) (o : SharedMutex) (f : CloseFaults) :
    Machine × SharedMutex × Int :=
  if o._rawMutex ≠ none then
    let r := m.shared_mutex_close o._rawMutex f
    (r.1, ⟨none⟩, r.2)
  else (m, o, 0)

/-- The member `destory()`. -/
def SharedMutex.destory (m : Machine) (o : SharedMutex) (f : DestroyFaults) :
    Machine × SharedMutex × Int :=
  let r := m.shared_mutex_destroy o._rawMutex f
  (r.1, o, r.2)

/-- The destructor `~SharedMutex()`. -/
def SharedMutex.drop (m : Machine) (o : SharedMutex) (f : CloseFaults) : Machine :=
  (m.shared_mutex_close o._rawMutex f).1

/-- A member call on the wrapper object. -/
inductive Member
  | lock (self : Nat) (f : LockFaults)
  | unlock (self : Nat) (fault : Option Errno)
  | isValid
  | close (f : CloseFaults)
  | destory (f : DestroyFaults)

/-- Run one member call; `none` when `lock()` does not return. -/
def Member.run (m : Machine) (o : SharedMutex) : Member → Option (Machine × SharedMutex)
  | .lock self f => (SharedMutex.lock m o self f).map fun r => (r.1, r.2.1)
  | .unlock self fault =>
    let r := SharedMutex.unlock m o self fault
    some (r.1, r.2.1)
  | .isValid =>
    let r := SharedMutex.isValid m o
    some (r.1, r.2.1)
  | .close f =>
    let r := SharedMutex.close m o f
    some (r.1, r.2.1)
  | .destory f =>
    let r := SharedMutex.destory m o f
    some (r.1, r.2.1)

/-- Run a sequence of member calls. -/
def runMembers (m : Machine) (o : SharedMutex) : List Member → Option (Machine × SharedMutex)
  | [] => some (m, o)
  | c :: rest => (c.run m o).bind fun r => runMembers r.1 r.2 rest

/-- The life of a wrapper object: construction with `name`, a sequence of member calls,
then the destructor.  The result is the record of core calls and whether a call was made
through a null or freed pointer; `none` when a `lock()` does not return. -/
def SharedMutex.life (name : String) (f : InitFaults) (members : List Member)
    (fdrop : CloseFaults) : Option (List CoreCall × Bool) :=
  let c := SharedMutex.new Machine.empty name f
  (runMembers c.1 c.2 members).map fun r =>
    let m := SharedMutex.drop r.1 r.2 fdrop
    (m.calls, m.undefined)

/-! ## Basic facts -/

@[simp] theorem Errno.code_ne_zero (e : Errno) : e.code ≠ 0 := e.pos

/-! ## Validity -/

/-- The test `shared_mutex_is_valid` makes, on any handle value: the handle is not null,
its name pointer is set, its descriptor is greater than -1 and `ptr` is not `NULL`. -/
theorem shared_mutex_is_valid_iff (mutex : Option shared_mutex) :
    shared_mutex_is_valid mutex = true ↔
      ∃ m, mutex = some m ∧ m.name ≠ none ∧ m.shm_fd > -1 ∧ m.ptr ≠ .null := by
  cases mutex with
  | none => simp [shared_mutex_is_valid]
  | some m =>
    cases hn : m.name <;> simp [shared_mutex_is_valid, hn, and_assoc]

/-! ## Initialisation -/

theorem callsSince_append (w1 w : World) (l : List Call) (h : w1.trace = w.trace ++ l) :
    w1.callsSince w = l := by
  simp [World.callsSince, h]

/-- What the part of `shared_mutex_init` after the open-or-create step does, on a handle
whose `ptr` and `name` are still unset. -/
theorem shared_mutex_init_map_facts (w : World) (m : shared_mutex) (name : String)
    (f : InitFaults) (hp : m.ptr = .null) (hn : m.name = none) :
    (shared_mutex_init_map w m name f).1.trace =
        w.trace ++ (shared_mutex_init_map w m name f).1.callsSince w ∧
      (∀ c ∈ (shared_mutex_init_map w m name f).1.callsSince w, ∀ b, c.fn ≠ .shm_open b) ∧
      (shared_mutex_init_map w m name f).2.shm_fd = m.shm_fd ∧
      (shared_mutex_init_map w m name f).2.created = m.created ∧
      ((∃ r e, r ≠ 0 ∧
            (⟨.ftruncate, r, e⟩ : Call) ∈ (shared_mutex_init_map w m name f).1.callsSince w) ∨
          (∃ e, (⟨.mmap, -1, e⟩ : Call) ∈ (shared_mutex_init_map w m name f).1.callsSince w) →
        (shared_mutex_init_map w m name f).2.ptr = .null) ∧
      ((shared_mutex_init_map w m name f).2.ptr = .null ∧
          (shared_mutex_init_map w m name f).2.name = none ∨
        (shared_mutex_init_map w m name f).2.ptr ≠ .null ∧
          (shared_mutex_init_map w m name f).2.name = some name) ∧
      (m.shm_fd = -1 → (shared_mutex_init_map w m name f).2.ptr = .null) ∧
      ((∀ c ∈ (shared_mutex_init_map w m name f).1.callsSince w, c.succeeded = true) →
        m.shm_fd ≠ -1 → (shared_mutex_init_map w m name f).2.ptr ≠ .null) := by
  obtain ⟨p, fd, n, cr⟩ := m
  obtain ⟨f1, f2, f3, f4, f5, f6, f7, f8⟩ := f
  simp only at hp hn
  subst hp hn
  by_cases hfd : fd = -1
  · simp [shared_mutex_init_map, hfd, World.callsSince]
  cases f3 with
  | some e3 =>
    simp [shared_mutex_init_map, hfd, World.callsSince, ftruncate, World.log, Call.succeeded]
  | none =>
    cases hfds : w.fds fd with
    | none =>
      simp [shared_mutex_init_map, hfd, World.callsSince, ftruncate, World.log, Call.succeeded,
        hfds]
    | some id =>
      cases f4 with
      | some e4 =>
        simp [shared_mutex_init_map, hfd, World.callsSince, ftruncate, World.log,
          Call.succeeded, hfds, mmap]
      | none =>
        by_cases hc : cr = 0
        · simp [shared_mutex_init_map, hfd, World.callsSince, ftruncate, World.log,
            Call.succeeded, hfds, mmap, shared_mutex_init_primitive, hc]
        · cases f5 <;> cases f6 <;> cases f7 <;> cases f8 <;>
            simp [shared_mutex_init_map, hfd, World.callsSince, ftruncate, World.log,
              Call.succeeded, hfds, mmap, shared_mutex_init_primitive, hc,
              pthread_mutexattr_init, pthread_mutexattr_setpshared,
              pthread_mutexattr_setrobust, pthread_mutex_init, World.deref, World.setMutex,
              set]

/-- What the open-or-create step of `shared_mutex_init` does. -/
theorem shared_mutex_init_open_facts (w : World) (name : String) (f : InitFaults) :
    (shared_mutex_init_open w name f).1.trace =
        w.trace ++ (shared_mutex_init_open w name f).1.callsSince w ∧
      (shared_mutex_init_open w name f).2.ptr = .null ∧
      (shared_mutex_init_open w name f).2.name = none ∧
      (∀ c ∈ (shared_mutex_init_open w name f).1.callsSince w, ∃ b, c.fn = .shm_open b) ∧
      ((shared_mutex_init_open w name f).2.created = 0 ∨
        (shared_mutex_init_open w name f).2.created = 1) ∧
      ((shared_mutex_init_open w name f).2.created = 1 ↔
        (⟨.shm_open false, -1, ENOENT⟩ : Call) ∈
          (shared_mutex_init_open w name f).1.callsSince w) ∧
      ((shared_mutex_init_open w name f).2.shm_fd = -1 ↔
        ((∃ e, e ≠ (ENOENT : Int) ∧ (⟨.shm_open false, -1, e⟩ : Call) ∈
            (shared_mutex_init_open w name f).1.callsSince w) ∨
          (∃ e, (⟨.shm_open true, -1, e⟩ : Call) ∈
            (shared_mutex_init_open w name f).1.callsSince w))) ∧
      ((∃ fd e, fd ≠ -1 ∧ (⟨.shm_open true, fd, e⟩ : Call) ∈
            (shared_mutex_init_open w name f).1.callsSince w) ↔
        (shared_mutex_init_open w name f).2.created = 1 ∧
          (shared_mutex_init_open w name f).2.shm_fd ≠ -1) ∧
      ((∀ c ∈ (shared_mutex_init_open w name f).1.callsSince w, c.succeeded = true) →
        (shared_mutex_init_open w name f).2.shm_fd ≠ -1) ∧
      ((shared_mutex_init_open w name f).2.shm_fd = -1 ∨
        (shared_mutex_init_open w name f).2.shm_fd > -1) := by
  obtain ⟨f1, f2, f3, f4, f5, f6, f7, f8⟩ := f
  cases f1 with
  | some e1 =>
    by_cases he : (e1.code : Int) = ENOENT
    · cases f2 <;> cases hn : w.names name <;>
        simp [shared_mutex_init_open, shm_open, World.log, World.callsSince, he, hn,
          Call.succeeded] <;> omega
    · simp [shared_mutex_init_open, shm_open, World.log, World.callsSince, he, Call.succeeded]
      omega
  | none =>
    cases hn : w.names name with
    | some id =>
      simp [shared_mutex_init_open, shm_open, World.log, World.callsSince, hn, Call.succeeded,
        ENOENT]
      omega
    | none =>
      cases f2 with
      | some e2 =>
        simp [shared_mutex_init_open, shm_open, World.log, World.callsSince, hn,
          Call.succeeded, ENOENT]
      | none =>
        simp [shared_mutex_init_open, shm_open, World.log, World.callsSince, hn,
          Call.succeeded, ENOENT]
        omega

/-- The calls of `shared_mutex_init` are those of the open-or-create step followed by
those of the rest. -/
theorem shared_mutex_init_calls (w : World) (name : String) (f : InitFaults) :
    (shared_mutex_init w name f).1.callsSince w =
      (shared_mutex_init_open w name f).1.callsSince w ++
        (shared_mutex_init w name f).1.callsSince (shared_mutex_init_open w name f).1 := by
  have ho := (shared_mutex_init_open_facts w name f).1
  have hm := (shared_mutex_init_map_facts (shared_mutex_init_open w name f).1
    (shared_mutex_init_open w name f).2 name f (shared_mutex_init_open_facts w name f).2.1
    (shared_mutex_init_open_facts w name f).2.2.1).1
  apply callsSince_append
  show (shared_mutex_init_map _ _ name f).1.trace = _
  rw [hm, ho, List.append_assoc]
  rfl

/-- The name of the handle `shared_mutex_init` returns is unset or the argument. -/
theorem shared_mutex_init_name (w : World) (name : String) (f : InitFaults) :
    (shared_mutex_init w name f).2.name = none ∨
      (shared_mutex_init w name f).2.name = some name := by
  obtain ⟨-, hop, hon, -⟩ := shared_mutex_init_open_facts w name f
  obtain ⟨-, -, -, -, -, hmn, -⟩ :=
    shared_mutex_init_map_facts (shared_mutex_init_open w name f).1
      (shared_mutex_init_open w name f).2 name f hop hon
  rcases hmn with ⟨-, h⟩ | ⟨-, h⟩
  · exact Or.inl h
  · exact Or.inr h

/-- What a failed `shared_mutex_close` leaves of a handle has the name of the handle. -/
theorem shared_mutex_close_left_name (w : World) (m m1 : shared_mutex) (f : CloseFaults)
    (h : (shared_mutex_close w m f).2.1 = some m1) : m1.name = m.name := by
  simp only [shared_mutex_close, shared_mutex_close_fd] at h
  split_ifs at h <;> simp at h <;> subst h <;> rfl

/-- What a failed `shared_mutex_destroy` leaves of a handle has the name of the handle. -/
theorem shared_mutex_destroy_left_name (w : World) (m m1 : shared_mutex) (f : DestroyFaults)
    (h : (shared_mutex_destroy w m f).2.1 = some m1) : m1.name = m.name := by
  simp only [shared_mutex_destroy, shared_mutex_destroy_unmap, shared_mutex_destroy_fd,
    shared_mutex_destroy_unlink] at h
  split_ifs at h <;> (try split at h) <;> (try split_ifs at h) <;> simp at h <;> subst h <;> rfl

/-- A handle the code can be given has no name or a name that is not empty. -/
theorem Receivable.name_ne_empty (o : Option shared_mutex) (h : Receivable o) :
    ∀ m n, o = some m → m.name = some n → n ≠ "" := by
  induction h with
  | null =>
    intro m n hm
    cases hm
  | init w name f hname =>
    intro m n hm hn
    cases hm
    rcases shared_mutex_init_name w name f with h | h
    · rw [h] at hn
      cases hn
    · rw [h] at hn
      cases hn
      exact hname
  | close w m0 m1 f _ hleft ih =>
    intro m n hm hn
    rw [← Option.some.inj hm, shared_mutex_close_left_name w m0 m1 f hleft] at hn
    exact ih m0 n rfl hn
  | destroy w m0 m1 f _ hleft ih =>
    intro m n hm hn
    rw [← Option.some.inj hm, shared_mutex_destroy_left_name w m0 m1 f hleft] at hn
    exact ih m0 n rfl hn

/-- C7: for every handle the code can be given (the null handle, a handle returned by
`shared_mutex_init` whatever the platform calls did, or what a failed close or destroy
leaves of one), `shared_mutex_is_valid` returns true exactly when the handle is not null,
has a name that is not empty, has a descriptor greater than -1 and has `ptr` not `NULL`.
The function takes the handle alone and returns a value: it changes nothing. -/
theorem shared_mutex_is_valid_spec (mutex : Option shared_mutex) (h : Receivable mutex) :
    shared_mutex_is_valid mutex = true ↔
      ∃ m n, mutex = some m ∧ m.name = some n ∧ n ≠ "" ∧ m.shm_fd > -1 ∧ m.ptr ≠ .null := by
  rw [shared_mutex_is_valid_iff]
  constructor
  · rintro ⟨m, rfl, hn, hfd, hp⟩
    cases hname : m.name with
    | none => exact absurd hname hn
    | some n => exact ⟨m, n, rfl, hname, Receivable.name_ne_empty _ h m n rfl hname, hfd, hp⟩
  · rintro ⟨m, n, rfl, hn, -, hfd, hp⟩
    exact ⟨m, rfl, by simp [hn], hfd, hp⟩

/-- C7, at concrete inputs: the handle returned by `shared_mutex_init` on the empty
platform with no injected error is valid, and its name is the argument, which is not
empty; the null handle is not valid. -/
theorem shared_mutex_is_valid_spec_witness :
    Receivable (some (shared_mutex_init World.empty "/m" InitFaults.none).2) ∧
      shared_mutex_is_valid (some (shared_mutex_init World.empty "/m" InitFaults.none).2) =
        true ∧
      (shared_mutex_init World.empty "/m" InitFaults.none).2.name = some "/m" ∧
      shared_mutex_is_valid none = false :=
  ⟨Receivable.init World.empty "/m" InitFaults.none (by decide),
    (shared_mutex_is_valid_spec _
      (Receivable.init World.empty "/m" InitFaults.none (by decide))).2
      ⟨_, "/m", rfl, by decide, by decide, by decide, by decide⟩,
    by decide, by decide⟩

/-- With no injected error and an existing segment, `shared_mutex_init` attaches: the
handle and the world it returns. -/
theorem shared_mutex_init_attach (w : World) (name : String) (id : Nat)
    (h : w.names name = some id) :
    (shared_mutex_init w name InitFaults.none).2 =
        ⟨.addr w.nextAddr, w.nextFd, some name, 0⟩ ∧
      (shared_mutex_init w name InitFaults.none).1.names = w.names ∧
      (shared_mutex_init w name InitFaults.none).1.maps w.nextAddr = some id ∧
      (∀ i, ((shared_mutex_init w name InitFaults.none).1.objs i).mtx = (w.objs i).mtx) ∧
      (shared_mutex_init w name InitFaults.none).1.callsSince w =
        [⟨.shm_open false, w.nextFd, 0⟩, ⟨.ftruncate, 0, 0⟩, ⟨.mmap, 0, 0⟩] := by
  refine ⟨?_, ?_, ?_, ?_, ?_⟩ <;>
    simp [shared_mutex_init, shared_mutex_init_open, shared_mutex_init_map,
      shared_mutex_init_primitive, InitFaults.none, shm_open, ftruncate, mmap, World.log,
      World.callsSince, h, set, ENOENT]
  intro i
  split <;> simp_all

/-- With no injected error and no segment of that name, `shared_mutex_init` creates the
segment and constructs the mutex: the handle and the world it returns. -/
theorem shared_mutex_init_create (w : World) (name : String) (h : w.names name = none) :
    (shared_mutex_init w name InitFaults.none).2 =
        ⟨.addr w.nextAddr, w.nextFd, some name, 1⟩ ∧
      (shared_mutex_init w name InitFaults.none).1.names name = some w.nextObj ∧
      (shared_mutex_init w name InitFaults.none).1.maps w.nextAddr = some w.nextObj ∧
      ((shared_mutex_init w name InitFaults.none).1.objs w.nextObj).mtx =
        .live true true .unlocked ∧
      (shared_mutex_init w name InitFaults.none).1.callsSince w =
        [⟨.shm_open false, -1, ENOENT⟩, ⟨.shm_open true, w.nextFd, ENOENT⟩,
          ⟨.ftruncate, 0, ENOENT⟩, ⟨.mmap, 0, ENOENT⟩,
          ⟨.pthread_mutexattr_init, 0, ENOENT⟩, ⟨.pthread_mutexattr_setpshared, 0, ENOENT⟩,
          ⟨.pthread_mutexattr_setrobust, 0, ENOENT⟩, ⟨.pthread_mutex_init, 0, ENOENT⟩] := by
  refine ⟨?_, ?_, ?_, ?_, ?_⟩ <;>
    simp [shared_mutex_init, shared_mutex_init_open, shared_mutex_init_map,
      shared_mutex_init_primitive, InitFaults.none, shm_open, ftruncate, mmap, World.log,
      World.callsSince, h, set, pthread_mutexattr_init, pthread_mutexattr_setpshared,
      pthread_mutexattr_setrobust, pthread_mutex_init, World.deref, World.setMutex]

/-- C1: when the open-or-create step fails (the open fails for a reason other than
not-found, or the creating open fails), or `ftruncate` fails, or `mmap` fails, the handle
returned by `shared_mutex_init` has `ptr = NULL` and is not valid; when every platform call
the function made succeeded, and also when no error is injected (the only failing call is
then the not-found report of the first open), the handle is valid. -/
theorem shared_mutex_init_valid (w : World) (name : String) (f : InitFaults) :
    ((∃ e, e ≠ (ENOENT : Int) ∧
          (⟨.shm_open false, -1, e⟩ : Call) ∈ (shared_mutex_init w name f).1.callsSince w) ∨
        (∃ e, (⟨.shm_open true, -1, e⟩ : Call) ∈ (shared_mutex_init w name f).1.callsSince w) ∨
        (∃ r e, r ≠ 0 ∧
          (⟨.ftruncate, r, e⟩ : Call) ∈ (shared_mutex_init w name f).1.callsSince w) ∨
        (∃ e, (⟨.mmap, -1, e⟩ : Call) ∈ (shared_mutex_init w name f).1.callsSince w) →
      (shared_mutex_init w name f).2.ptr = .null ∧
        shared_mutex_is_valid (some (shared_mutex_init w name f).2) = false) ∧
    ((∀ c ∈ (shared_mutex_init w name f).1.callsSince w, c.succeeded = true) →
      shared_mutex_is_valid (some (shared_mutex_init w name f).2) = true) ∧
    (f = InitFaults.none →
      shared_mutex_is_valid (some (shared_mutex_init w name f).2) = true) := by
  have hc := shared_mutex_init_calls w name f
  obtain ⟨-, hop, hon, hoc, -, -, hofd, -, hok, hor⟩ := shared_mutex_init_open_facts w name f
  obtain ⟨-, hmc, hmfd, -, hmf, hmn, hmnull, hmok⟩ :=
    shared_mutex_init_map_facts (shared_mutex_init_open w name f).1
      (shared_mutex_init_open w name f).2 name f hop hon
  have hinv : (shared_mutex_init w name f).2.ptr = .null →
      (shared_mutex_init w name f).2.ptr = .null ∧
        shared_mutex_is_valid (some (shared_mutex_init w name f).2) = false := by
    intro h
    exact ⟨h, by simp [shared_mutex_is_valid, h]⟩
  refine ⟨?_, ?_, ?_⟩
  · rw [hc]
    rintro (⟨e, he, hmem⟩ | ⟨e, hmem⟩ | ⟨r, e, hr, hmem⟩ | ⟨e, hmem⟩)
    · rcases List.mem_append.1 hmem with h | h
      · exact hinv (hmnull (hofd.2 (Or.inl ⟨e, he, h⟩)))
      · exact absurd rfl (hmc _ h false)
    · rcases List.mem_append.1 hmem with h | h
      · exact hinv (hmnull (hofd.2 (Or.inr ⟨e, h⟩)))
      · exact absurd rfl (hmc _ h true)
    · rcases List.mem_append.1 hmem with h | h
      · obtain ⟨b, hb⟩ := hoc _ h
        cases hb
      · exact hinv (hmf (Or.inl ⟨r, e, hr, h⟩))
    · rcases List.mem_append.1 hmem with h | h
      · obtain ⟨b, hb⟩ := hoc _ h
        cases hb
      · exact hinv (hmf (Or.inr ⟨e, h⟩))
  · rw [hc]
    intro hall
    have h1 := hok fun c hcm => hall c (List.mem_append.2 (Or.inl hcm))
    have h2 := hmok (fun c hcm => hall c (List.mem_append.2 (Or.inr hcm))) h1
    have h3 : (shared_mutex_init w name f).2.name = some name := by
      rcases hmn with ⟨hn, -⟩ | ⟨-, hn⟩
      · exact absurd hn h2
      · exact hn
    have h4 : (shared_mutex_init w name f).2.shm_fd > -1 := by
      have : (shared_mutex_init w name f).2.shm_fd =
          (shared_mutex_init_open w name f).2.shm_fd := hmfd
      rw [this]
      rcases hor with h | h
      · exact absurd h h1
      · exact h
    have h2n : (shared_mutex_init w name f).2.ptr ≠ .null := h2
    simp [shared_mutex_is_valid, h3, h4, h2n]
  · rintro rfl
    cases hn : w.names name with
    | none =>
      simp [shared_mutex_is_valid, (shared_mutex_init_create w name hn).1]
      omega
    | some id =>
      simp [shared_mutex_is_valid, (shared_mutex_init_attach w name id hn).1]
      omega

/-- C1, at a concrete input: on the empty platform, when the open fails with
`ENAMETOOLONG` (a name longer than the platform allows), the handle has `ptr = NULL`
and is not valid. -/
theorem shared_mutex_init_valid_witness :
    (⟨.shm_open false, -1, ENAMETOOLONG⟩ : Call) ∈
        (shared_mutex_init World.empty "/m"
          { InitFaults.none with shm_open := some Errno.enametoolong }).1.callsSince
          World.empty ∧
      (shared_mutex_init World.empty "/m"
          { InitFaults.none with shm_open := some Errno.enametoolong }).2.ptr = .null ∧
      shared_mutex_is_valid (some (shared_mutex_init World.empty "/m"
          { InitFaults.none with shm_open := some Errno.enametoolong }).2) = false :=
  ⟨by decide,
    (shared_mutex_init_valid World.empty "/m"
      { InitFaults.none with shm_open := some Errno.enametoolong }).1
      (Or.inl ⟨ENAMETOOLONG, by decide, by decide⟩)⟩

/-- How the code sets `created`: it is 0 or 1, and 1 exactly when the first open reported
not-found; for a returned handle whose descriptor is not -1 that is exactly when the first
open reported not-found and the creating open succeeded. -/
theorem shared_mutex_init_created (w : World) (name : String) (f : InitFaults) :
    ((shared_mutex_init w name f).2.created = 0 ∨ (shared_mutex_init w name f).2.created = 1) ∧
    ((shared_mutex_init w name f).2.created = 1 ↔
      (⟨.shm_open false, -1, ENOENT⟩ : Call) ∈ (shared_mutex_init w name f).1.callsSince w) ∧
    ((shared_mutex_init w name f).2.shm_fd ≠ -1 →
      ((shared_mutex_init w name f).2.created = 1 ↔
        (⟨.shm_open false, -1, ENOENT⟩ : Call) ∈ (shared_mutex_init w name f).1.callsSince w ∧
          ∃ fd e, fd ≠ -1 ∧
            (⟨.shm_open true, fd, e⟩ : Call) ∈ (shared_mutex_init w name f).1.callsSince w)) := by
  have hc := shared_mutex_init_calls w name f
  obtain ⟨-, hop, hon, -, h01, hcr, -, hcs, -, -⟩ := shared_mutex_init_open_facts w name f
  obtain ⟨-, hmc, hmfd, hmcr, -, -, -, -⟩ :=
    shared_mutex_init_map_facts (shared_mutex_init_open w name f).1
      (shared_mutex_init_open w name f).2 name f hop hon
  have hfd : (shared_mutex_init w name f).2.shm_fd =
      (shared_mutex_init_open w name f).2.shm_fd := hmfd
  have hcreated : (shared_mutex_init w name f).2.created =
      (shared_mutex_init_open w name f).2.created := hmcr
  have hnf : (⟨.shm_open false, -1, ENOENT⟩ : Call) ∈ (shared_mutex_init w name f).1.callsSince w ↔
      (⟨.shm_open false, -1, ENOENT⟩ : Call) ∈ (shared_mutex_init_open w name f).1.callsSince w := by
    rw [hc, List.mem_append]
    exact ⟨fun h => h.elim id fun h => absurd rfl (hmc _ h false), Or.inl⟩
  have hcre : (∃ fd e, fd ≠ -1 ∧
        (⟨.shm_open true, fd, e⟩ : Call) ∈ (shared_mutex_init w name f).1.callsSince w) ↔
      ∃ fd e, fd ≠ -1 ∧
        (⟨.shm_open true, fd, e⟩ : Call) ∈ (shared_mutex_init_open w name f).1.callsSince w := by
    rw [hc]
    constructor
    · rintro ⟨fd, e, hne, h⟩
      rcases List.mem_append.1 h with h | h
      · exact ⟨fd, e, hne, h⟩
      · exact absurd rfl (hmc _ h true)
    · rintro ⟨fd, e, hne, h⟩
      exact ⟨fd, e, hne, List.mem_append.2 (Or.inl h)⟩
  rw [hcreated, hfd, hnf, hcre, hcs]
  refine ⟨h01, hcr, fun hne => ?_⟩
  rw [← hcr]
  exact ⟨fun h => ⟨h, h, hne⟩, fun h => h.1⟩

/-- C8, at the failing input: on the empty platform, when the first open reports
not-found and the creating open fails with `EACCES`, `shared_mutex_init` has already set
the flag: the handle it returns has `shm_fd = -1` and nevertheless `created = 1`, although
no segment was created (the only calls are the two failed opens, and the name is still
unbound). -/
theorem shared_mutex_init_created_on_failure :
    (shared_mutex_init World.empty "/m"
        { InitFaults.none with shm_open_creat := some Errno.eacces }).2.shm_fd = -1 ∧
      (shared_mutex_init World.empty "/m"
        { InitFaults.none with shm_open_creat := some Errno.eacces }).2.created = 1 ∧
      (shared_mutex_init World.empty "/m"
        { InitFaults.none with shm_open_creat := some Errno.eacces }).1.callsSince World.empty =
        [⟨.shm_open false, -1, ENOENT⟩, ⟨.shm_open true, -1, EACCES⟩] ∧
      (shared_mutex_init World.empty "/m"
        { InitFaults.none with shm_open_creat := some Errno.eacces }).1.names "/m" = none := by
  decide

/-- C9, at the failing input: on the empty platform, when
`pthread_mutexattr_setrobust` fails with `EINVAL` and every other call succeeds,
`shared_mutex_init` ignores the failure: the handle it returns is valid with
`created = 1`, and the mutex it points to was constructed process-shared but not robust.
The neighbouring step is checked: when `pthread_mutexattr_setpshared` fails instead, the
handle is not valid. -/
theorem shared_mutex_init_ignores_setrobust :
    (⟨.pthread_mutexattr_setrobust, EINVAL, ENOENT⟩ : Call) ∈
        (shared_mutex_init World.empty "/m"
          { InitFaults.none with setrobust := some Errno.einval }).1.callsSince World.empty ∧
      (shared_mutex_init World.empty "/m"
        { InitFaults.none with setrobust := some Errno.einval }).2.created = 1 ∧
      shared_mutex_is_valid (some (shared_mutex_init World.empty "/m"
        { InitFaults.none with setrobust := some Errno.einval }).2) = true ∧
      (shared_mutex_init World.empty "/m"
          { InitFaults.none with setrobust := some Errno.einval }).1.mutexAt
        (shared_mutex_init World.empty "/m"
          { InitFaults.none with setrobust := some Errno.einval }).2.ptr =
        some (.live true false .unlocked) ∧
      shared_mutex_is_valid (some (shared_mutex_init World.empty "/m"
        { InitFaults.none with setpshared := some Errno.einval }).2) = false := by
  decide

/-! ## Locking -/

/-- What `pthread_mutex_consistent` does: one call is recorded, and it returns 0 only
when the caller ends up holding the mutex in a consistent state. -/
theorem pthread_mutex_consistent_facts (w : World) (p : Ptr) (self : Nat)
    (fault : Option Errno) :
    (∃ e, (pthread_mutex_consistent w p self fault).1.trace =
        w.trace ++ [⟨.pthread_mutex_consistent, (pthread_mutex_consistent w p self fault).2, e⟩]) ∧
      ((pthread_mutex_consistent w p self fault).2 = 0 →
        ∃ ps rb, (pthread_mutex_consistent w p self fault).1.mutexAt p =
          some (.live ps rb (.locked self))) := by
  cases fault with
  | some e => simp [pthread_mutex_consistent, World.log]
  | none =>
    cases hd : w.deref p with
    | none => simp [pthread_mutex_consistent, World.log, hd, EINVAL]
    | some id =>
      have hd2 := hd
      cases p <;> simp only [World.deref] at hd2 <;> try exact absurd hd2 (by simp)
      rcases hm : (w.objs id).mtx with _ | ⟨ps, rb, st⟩ | _
      · simp [pthread_mutex_consistent, World.log, hd, hm, EINVAL]
      · cases st <;> simp [pthread_mutex_consistent, World.log, hd, hm, EINVAL]
        split <;> simp [World.mutexAt, World.deref, World.setMutex, hd2, set, EINVAL]
        cases ps <;> cases rb <;> simp
      · simp [pthread_mutex_consistent, World.log, hd, hm, EINVAL]

/-- What `pthread_mutex_lock` does when it returns: one call is recorded, and it returns
0 only when the caller ends up holding the mutex. -/
theorem pthread_mutex_lock_facts (w : World) (p : Ptr) (self : Nat) (fault : Option Errno)
    (l : World × Int) (h : pthread_mutex_lock w p self fault = some l) :
    (∃ e, l.1.trace = w.trace ++ [⟨.pthread_mutex_lock, l.2, e⟩]) ∧
      (l.2 = 0 → ∃ ps rb, l.1.mutexAt p = some (.live ps rb (.locked self))) := by
  cases fault with
  | some e =>
    simp only [pthread_mutex_lock, Option.some.injEq] at h
    subst h
    simp [World.log]
  | none =>
    cases hd : w.deref p with
    | none =>
      simp only [pthread_mutex_lock, hd, Option.some.injEq] at h
      subst h
      simp [World.log, EINVAL]
    | some id =>
      have hd2 := hd
      cases p <;> simp only [World.deref] at hd2 <;> try exact absurd hd2 (by simp)
      rcases hm : (w.objs id).mtx with _ | ⟨ps, rb, st⟩ | _
      · simp only [pthread_mutex_lock, hd, hm, Option.some.injEq] at h
        subst h
        simp [World.log, EINVAL]
      · cases st <;> cases rb <;>
          simp only [pthread_mutex_lock, hd, hm, Option.some.injEq] at h
        all_goals first
          | exact absurd h (by simp)
          | (subst h
             simp [World.log, World.mutexAt, World.deref, World.setMutex, hd2, set,
               EOWNERDEAD, ENOTRECOVERABLE])
      · simp only [pthread_mutex_lock, hd, hm, Option.some.injEq] at h
        subst h
        simp [World.log, EINVAL]

/-- C4: `shared_mutex_lock` returns exactly when `pthread_mutex_lock` does.  When it
returns, either the platform lock reported a status other than `EOWNERDEAD`, no recovery
call was made and that status is returned unchanged; or the platform lock reported
`EOWNERDEAD`, `pthread_mutex_consistent` was called exactly once and its status is
returned.  A returned 0 means the caller holds the mutex in a consistent state.  With no
injected error in the lock, a robust mutex whose owner died is granted and recovered with
status 0; when the recovery fails, its non-zero status is returned and the mutex stays
marked inconsistent. -/
theorem shared_mutex_lock_spec (w : World) (mutex : shared_mutex) (self : Nat)
    (f : LockFaults) :
    (shared_mutex_lock w mutex self f = none ↔
      pthread_mutex_lock w mutex.ptr self f.lock = none) ∧
    (∀ w1 status, shared_mutex_lock w mutex self f = some (w1, status) →
      ((∃ s e, s ≠ (EOWNERDEAD : Int) ∧ status = s ∧
            w1.callsSince w = [⟨.pthread_mutex_lock, s, e⟩]) ∨
          (∃ e e2, w1.callsSince w =
            [⟨.pthread_mutex_lock, EOWNERDEAD, e⟩, ⟨.pthread_mutex_consistent, status, e2⟩])) ∧
        (status = 0 →
          ∃ ps rb, w1.mutexAt mutex.ptr = some (.live ps rb (.locked self)))) ∧
    (∀ ps, w.mutexAt mutex.ptr = some (.live ps true .ownerDead) → f.lock = none →
      (f.consistent = none → ∃ w1, shared_mutex_lock w mutex self f = some (w1, 0) ∧
        w1.mutexAt mutex.ptr = some (.live ps true (.locked self))) ∧
      (∀ e, f.consistent = some e →
        ∃ w1, shared_mutex_lock w mutex self f = some (w1, (e.code : Int)) ∧
          (e.code : Int) ≠ 0 ∧
          w1.mutexAt mutex.ptr = some (.live ps true (.inconsistent self)))) := by
  refine ⟨?_, ?_, ?_⟩
  · unfold shared_mutex_lock
    cases pthread_mutex_lock w mutex.ptr self f.lock with
    | none => simp
    | some l => simp; split <;> simp
  · intro w1 status h
    unfold shared_mutex_lock at h
    cases hl : pthread_mutex_lock w mutex.ptr self f.lock with
    | none => simp [hl] at h
    | some l =>
      obtain ⟨⟨e, htr⟩, hheld⟩ := pthread_mutex_lock_facts w mutex.ptr self f.lock l hl
      simp only [hl] at h
      by_cases hod : l.2 = EOWNERDEAD
      · simp only [hod, if_true, Option.some.injEq] at h
        obtain ⟨⟨e2, htr2⟩, hheld2⟩ :=
          pthread_mutex_consistent_facts l.1 mutex.ptr self f.consistent
        rw [h] at htr2 hheld2
        refine ⟨Or.inr ⟨e, e2, ?_⟩, hheld2⟩
        apply callsSince_append
        rw [htr2, htr, hod]
        simp
      · simp only [hod, if_false, Option.some.injEq] at h
        subst h
        refine ⟨Or.inl ⟨_, e, hod, rfl, callsSince_append _ _ _ htr⟩, hheld⟩
  · intro ps hst hf
    obtain ⟨p, fd, n, cr⟩ := mutex
    obtain ⟨fl, fc⟩ := f
    simp only at hf hst
    subst hf
    cases p with
    | null => simp [World.mutexAt, World.deref] at hst
    | map_failed => simp [World.mutexAt, World.deref] at hst
    | addr a =>
      cases hd : w.maps a with
      | none => simp [World.mutexAt, World.deref, hd] at hst
      | some id =>
        simp only [World.mutexAt, World.deref, hd, Option.map_some', Option.some.injEq] at hst
        refine ⟨?_, ?_⟩
        · rintro rfl
          simp [shared_mutex_lock, pthread_mutex_lock, pthread_mutex_consistent, World.deref,
            World.mutexAt, World.setMutex, World.log, hd, hst, set]
        · rintro e rfl
          simp [shared_mutex_lock, pthread_mutex_lock, pthread_mutex_consistent, World.deref,
            World.mutexAt, World.setMutex, World.log, hd, hst, set]

/-- C4, at a concrete input: thread 7 locks a mutex whose owner died, on the platform
obtained from the empty one by creating the mutex and marking its owner dead; the lock
returns 0 and thread 7 holds the mutex. -/
theorem shared_mutex_lock_spec_witness :
    ∃ w1, shared_mutex_lock
          ((shared_mutex_init World.empty "/m" InitFaults.none).1.setMutex 0
            (.live true true .ownerDead))
          (shared_mutex_init World.empty "/m" InitFaults.none).2 7 LockFaults.none =
        some (w1, 0) ∧
      w1.mutexAt (shared_mutex_init World.empty "/m" InitFaults.none).2.ptr =
        some (.live true true (.locked 7)) :=
  ((shared_mutex_lock_spec
      ((shared_mutex_init World.empty "/m" InitFaults.none).1.setMutex 0
        (.live true true .ownerDead))
      (shared_mutex_init World.empty "/m" InitFaults.none).2 7 LockFaults.none).2.2
    true (by decide) rfl).1 rfl

/-! ## Closing -/

/-- The descriptor half of `shared_mutex_close`. -/
theorem shared_mutex_close_fd_facts (w : World) (mutex : shared_mutex) (f : CloseFaults) :
    (shared_mutex_close_fd w mutex f).1.trace =
        w.trace ++ (shared_mutex_close_fd w mutex f).1.callsSince w ∧
      (shared_mutex_close_fd w mutex f).1.names = w.names ∧
      (shared_mutex_close_fd w mutex f).1.objs = w.objs ∧
      (∀ c ∈ (shared_mutex_close_fd w mutex f).1.callsSince w, c.fn = .close) ∧
      ((∃ c ∈ (shared_mutex_close_fd w mutex f).1.callsSince w, c.fn = .close) ↔
        mutex.shm_fd > -1) ∧
      ((shared_mutex_close_fd w mutex f).2.2 = 0 ∨ (shared_mutex_close_fd w mutex f).2.2 = -1) ∧
      ((shared_mutex_close_fd w mutex f).2.2 = -1 ↔
        ∃ c ∈ (shared_mutex_close_fd w mutex f).1.callsSince w, c.ret ≠ 0) ∧
      ((shared_mutex_close_fd w mutex f).2.2 = 0 ↔ (shared_mutex_close_fd w mutex f).2.1 = none) := by
  obtain ⟨f1, f2⟩ := f
  by_cases hfd : mutex.shm_fd > -1
  · cases f2 with
    | some e => simp [shared_mutex_close_fd, hfd, close, World.log, World.callsSince]
    | none =>
      cases hf : w.fds mutex.shm_fd <;>
        simp [shared_mutex_close_fd, hfd, close, World.log, World.callsSince, hf]
  · simp [shared_mutex_close_fd, hfd, World.callsSince]

/-- What `shared_mutex_close` does to the platform and what it returns. -/
theorem shared_mutex_close_facts (w : World) (mutex : shared_mutex) (f : CloseFaults) :
    (shared_mutex_close w mutex f).1.names = w.names ∧
      (shared_mutex_close w mutex f).1.objs = w.objs ∧
      (∀ c ∈ (shared_mutex_close w mutex f).1.callsSince w, c.fn = .munmap ∨ c.fn = .close) ∧
      ((∃ c ∈ (shared_mutex_close w mutex f).1.callsSince w, c.fn = .munmap) ↔
        mutex.ptr ≠ .null) ∧
      ((shared_mutex_close w mutex f).2.2 = 0 ∨ (shared_mutex_close w mutex f).2.2 = -1) ∧
      ((shared_mutex_close w mutex f).2.2 = -1 ↔
        ∃ c ∈ (shared_mutex_close w mutex f).1.callsSince w, c.ret ≠ 0) ∧
      ((shared_mutex_close w mutex f).2.2 = 0 ↔ (shared_mutex_close w mutex f).2.1 = none) := by
  have key : ∀ (w0 : World) (pre : List Call) (m : shared_mutex),
      w0.trace = w.trace ++ pre → w0.names = w.names → w0.objs = w.objs →
      (shared_mutex_close_fd w0 m f).1.names = w.names ∧
      (shared_mutex_close_fd w0 m f).1.objs = w.objs ∧
      (shared_mutex_close_fd w0 m f).1.callsSince w =
        pre ++ (shared_mutex_close_fd w0 m f).1.callsSince w0 := by
    intro w0 pre m ht hn ho
    obtain ⟨h1, h2, h3, -⟩ := shared_mutex_close_fd_facts w0 m f
    refine ⟨h2.trans hn, h3.trans ho, ?_⟩
    apply callsSince_append
    rw [h1, ht, List.append_assoc]
  obtain ⟨f1, f2⟩ := f
  by_cases hp : mutex.ptr = .null
  · obtain ⟨-, -, -, h4, -, h6, h7, h8⟩ :=
      shared_mutex_close_fd_facts w { mutex with ptr := .null } ⟨f1, f2⟩
    obtain ⟨k1, k2, -⟩ := key w [] { mutex with ptr := .null } (by simp) rfl rfl
    simp only [shared_mutex_close, hp, ne_eq, not_true_eq_false, if_false]
    refine ⟨k1, k2, fun c hc => Or.inr (h4 c hc), ?_, h6, h7, h8⟩
    simp only [iff_false, not_exists, not_and]
    intro c hc hcf
    rw [h4 c hc] at hcf
    cases hcf
  · have hfail : ∀ e : Int, (munmap w mutex.ptr f1) = (({ w with errno := e } : World).log
        .munmap (-1), -1) →
        (shared_mutex_close w mutex ⟨f1, f2⟩).1.names = w.names ∧
        (shared_mutex_close w mutex ⟨f1, f2⟩).1.objs = w.objs ∧
        (∀ c ∈ (shared_mutex_close w mutex ⟨f1, f2⟩).1.callsSince w,
          c.fn = .munmap ∨ c.fn = .close) ∧
        ((∃ c ∈ (shared_mutex_close w mutex ⟨f1, f2⟩).1.callsSince w, c.fn = .munmap) ↔
          mutex.ptr ≠ .null) ∧
        ((shared_mutex_close w mutex ⟨f1, f2⟩).2.2 = 0 ∨
          (shared_mutex_close w mutex ⟨f1, f2⟩).2.2 = -1) ∧
        ((shared_mutex_close w mutex ⟨f1, f2⟩).2.2 = -1 ↔
          ∃ c ∈ (shared_mutex_close w mutex ⟨f1, f2⟩).1.callsSince w, c.ret ≠ 0) ∧
        ((shared_mutex_close w mutex ⟨f1, f2⟩).2.2 = 0 ↔
          (shared_mutex_close w mutex ⟨f1, f2⟩).2.1 = none) := by
      intro e he
      simp [shared_mutex_close, hp, he, World.log, World.callsSince]
    cases f1 with
    | some e => exact hfail _ rfl
    | none =>
      cases hptr : mutex.ptr with
      | null => exact absurd hptr hp
      | map_failed => simpa only [hptr] using hfail EINVAL (by simp [munmap, hptr])
      | addr a =>
        cases hm : w.maps a with
        | none => simpa only [hptr] using hfail EINVAL (by simp [munmap, hptr, hm])
        | some id =>
          have hu : munmap w mutex.ptr none =
              (({ w with maps := set w.maps a none } : World).log .munmap 0, 0) := by
            simp [munmap, hptr, hm]
          obtain ⟨-, -, -, h4, -, h6, h7, h8⟩ :=
            shared_mutex_close_fd_facts (({ w with maps := set w.maps a none } : World).log
              .munmap 0) { mutex with ptr := .null } ⟨none, f2⟩
          obtain ⟨k1, k2, k3⟩ := key (({ w with maps := set w.maps a none } : World).log
              .munmap 0) [⟨.munmap, 0, w.errno⟩] { mutex with ptr := .null }
              (by simp [World.log]) rfl rfl
          have hcl : shared_mutex_close w mutex ⟨none, f2⟩ =
              shared_mutex_close_fd (({ w with maps := set w.maps a none } : World).log
                .munmap 0) { mutex with ptr := .null } ⟨none, f2⟩ := by
            simp [shared_mutex_close, hp, hu]
          rw [hcl, k3]
          refine ⟨k1, k2, ?_, ?_, h6, ?_, h8⟩
          · intro c hc
            rcases List.mem_append.1 hc with h | h
            · simp only [List.mem_singleton] at h
              subst h
              exact Or.inl rfl
            · exact Or.inr (h4 c h)
          · simp
          · rw [h7]
            simp

/-- After an attaching `shared_mutex_init` the handle is valid, has `created = 0`, is mapped
to the object the name was bound to, and the mutex in that object is as it was. -/
theorem shared_mutex_init_attach_mutex (w : World) (name : String) (id : Nat)
    (h : w.names name = some id) :
    (shared_mutex_init w name InitFaults.none).2.created = 0 ∧
      shared_mutex_is_valid (some (shared_mutex_init w name InitFaults.none).2) = true ∧
      (shared_mutex_init w name InitFaults.none).1.names name = some id ∧
      (shared_mutex_init w name InitFaults.none).1.deref
        (shared_mutex_init w name InitFaults.none).2.ptr = some id ∧
      (shared_mutex_init w name InitFaults.none).1.mutexAt
        (shared_mutex_init w name InitFaults.none).2.ptr = some (w.objs id).mtx ∧
      ∀ c ∈ (shared_mutex_init w name InitFaults.none).1.callsSince w,
        c.fn ≠ .pthread_mutex_init := by
  obtain ⟨h1, h2, h3, h4, h5⟩ := shared_mutex_init_attach w name id h
  refine ⟨by rw [h1], ?_, by rw [h2, h], ?_, ?_, ?_⟩
  · rw [h1]
    simp [shared_mutex_is_valid]
    omega
  · rw [h1]
    simpa [World.deref] using h3
  · rw [h1]
    simp [World.mutexAt, World.deref, h3, h4]
  · rw [h5]
    simp

/-- C6: `shared_mutex_close`, whatever it returns, leaves the table of named segments and
every segment (so every mutex and its lock state) as they were; the only platform calls it
makes are `munmap` (made exactly when `ptr` is not `NULL`) and `close`, never `shm_unlink`,
`pthread_mutex_destroy` or `pthread_mutex_unlock`; it returns 0 or -1, and -1 exactly when
one of its calls failed.  A later `shared_mutex_init` of a name whose segment exists
attaches (`created = 0`) and finds the mutex in the state it had before the close. -/
theorem shared_mutex_close_keeps_segment (w : World) (mutex : shared_mutex) (f : CloseFaults) :
    (shared_mutex_close w mutex f).1.names = w.names ∧
    (shared_mutex_close w mutex f).1.objs = w.objs ∧
    (∀ c ∈ (shared_mutex_close w mutex f).1.callsSince w,
      (c.fn = .munmap ∨ c.fn = .close) ∧ c.fn ≠ .shm_unlink ∧
        c.fn ≠ .pthread_mutex_destroy ∧ c.fn ≠ .pthread_mutex_unlock) ∧
    ((∃ c ∈ (shared_mutex_close w mutex f).1.callsSince w, c.fn = .munmap) ↔
      mutex.ptr ≠ .null) ∧
    ((shared_mutex_close w mutex f).2.2 = 0 ∨ (shared_mutex_close w mutex f).2.2 = -1) ∧
    ((shared_mutex_close w mutex f).2.2 = -1 ↔
      ∃ c ∈ (shared_mutex_close w mutex f).1.callsSince w, c.ret ≠ 0) ∧
    (∀ name id, w.names name = some id →
      (shared_mutex_init (shared_mutex_close w mutex f).1 name InitFaults.none).2.created = 0 ∧
        shared_mutex_is_valid
          (some (shared_mutex_init (shared_mutex_close w mutex f).1 name InitFaults.none).2) =
          true ∧
        (shared_mutex_init (shared_mutex_close w mutex f).1 name InitFaults.none).1.mutexAt
          (shared_mutex_init (shared_mutex_close w mutex f).1 name InitFaults.none).2.ptr =
          some (w.objs id).mtx) := by
  obtain ⟨h1, h2, h3, h4, h5, h6, -⟩ := shared_mutex_close_facts w mutex f
  refine ⟨h1, h2, ?_, h4, h5, h6, ?_⟩
  · intro c hc
    rcases h3 c hc with h | h <;> simp [h]
  · intro name id hn
    obtain ⟨a1, a2, -, -, a5, -⟩ :=
      shared_mutex_init_attach_mutex (shared_mutex_close w mutex f).1 name id (by rw [h1, hn])
    exact ⟨a1, a2, by rw [a5, h2]⟩

/-- C6, at a concrete input: thread 7 creates the mutex on the empty platform, locks it
and closes the handle; the close returns 0, and a later `shared_mutex_init` attaches
and finds the mutex still locked by thread 7. -/
theorem shared_mutex_close_keeps_segment_witness :
    ∃ w1, shared_mutex_lock (shared_mutex_init World.empty "/m" InitFaults.none).1
          (shared_mutex_init World.empty "/m" InitFaults.none).2 7 LockFaults.none =
        some (w1, 0) ∧
      (shared_mutex_close w1 (shared_mutex_init World.empty "/m" InitFaults.none).2
        CloseFaults.none).2.2 = 0 ∧
      (shared_mutex_init
        (shared_mutex_close w1 (shared_mutex_init World.empty "/m" InitFaults.none).2
          CloseFaults.none).1 "/m" InitFaults.none).2.created = 0 ∧
      (shared_mutex_init
        (shared_mutex_close w1 (shared_mutex_init World.empty "/m" InitFaults.none).2
          CloseFaults.none).1 "/m" InitFaults.none).1.mutexAt
        (shared_mutex_init
          (shared_mutex_close w1 (shared_mutex_init World.empty "/m" InitFaults.none).2
            CloseFaults.none).1 "/m" InitFaults.none).2.ptr =
        some (.live true true (.locked 7)) := by
  refine ⟨_, rfl, by decide, ?_⟩
  have h := (shared_mutex_close_keeps_segment
    ((shared_mutex_lock (shared_mutex_init World.empty "/m" InitFaults.none).1
      (shared_mutex_init World.empty "/m" InitFaults.none).2 7 LockFaults.none).get
        (by decide)).1
    (shared_mutex_init World.empty "/m" InitFaults.none).2 CloseFaults.none).2.2.2.2.2.2
    "/m" 0 (by decide)
  exact ⟨h.1, h.2.2⟩

/-! ## Destroying -/

theorem shared_mutex_destroy_unlink_ok (w : World) (m : shared_mutex) (f : DestroyFaults)
    (n : String) (hn : m.name = some n) (h : (shared_mutex_destroy_unlink w m f).2.2 = 0) :
    (shared_mutex_destroy_unlink w m f).1.names n = none ∧
      (shared_mutex_destroy_unlink w m f).2.1 = none ∧
      (⟨.shm_unlink, 0, w.errno⟩ : Call) ∈ (shared_mutex_destroy_unlink w m f).1.trace := by
  obtain ⟨f1, f2, f3, f4⟩ := f
  cases f4 with
  | some e => simp [shared_mutex_destroy_unlink, hn, shm_unlink] at h
  | none =>
    cases hw : w.names n with
    | none => simp [shared_mutex_destroy_unlink, hn, shm_unlink, hw] at h
    | some id => simp [shared_mutex_destroy_unlink, hn, shm_unlink, hw, World.log, set]

theorem shared_mutex_destroy_fd_ok (w : World) (m : shared_mutex) (f : DestroyFaults)
    (n : String) (hn : m.name = some n) (h : (shared_mutex_destroy_fd w m f).2.2 = 0) :
    (shared_mutex_destroy_fd w m f).1.names n = none ∧
      (shared_mutex_destroy_fd w m f).2.1 = none ∧
      ∃ e, (⟨.shm_unlink, 0, e⟩ : Call) ∈ (shared_mutex_destroy_fd w m f).1.trace := by
  unfold shared_mutex_destroy_fd at h ⊢
  split at h
  · simp only at h
    split at h
    · simp at h
    · rename_i h1 h2
      simp only [h1, h2, if_true, if_false]
      obtain ⟨a, b, c⟩ := shared_mutex_destroy_unlink_ok _ _ f n (by simpa using hn) h
      exact ⟨a, b, _, c⟩
  · rename_i h1
    simp only [h1, if_false]
    obtain ⟨a, b, c⟩ := shared_mutex_destroy_unlink_ok _ _ f n (by simpa using hn) h
    exact ⟨a, b, _, c⟩

theorem shared_mutex_destroy_unmap_ok (w : World) (m : shared_mutex) (f : DestroyFaults)
    (n : String) (hn : m.name = some n) (h : (shared_mutex_destroy_unmap w m f).2.2 = 0) :
    (shared_mutex_destroy_unmap w m f).1.names n = none ∧
      (shared_mutex_destroy_unmap w m f).2.1 = none ∧
      ∃ e, (⟨.shm_unlink, 0, e⟩ : Call) ∈ (shared_mutex_destroy_unmap w m f).1.trace := by
  unfold shared_mutex_destroy_unmap at h ⊢
  split at h
  · simp only at h
    split at h
    · simp at h
    · rename_i h1 h2
      rw [if_pos h1, if_neg h2]
      exact shared_mutex_destroy_fd_ok _ _ f n (by simpa using hn) h
  · rename_i h1
    rw [if_neg h1]
    exact shared_mutex_destroy_fd_ok _ _ f n (by simpa using hn) h

/-- When `shared_mutex_destroy` returns 0 on a handle that has a name, no segment of
that name is left, the handle is freed, and `shm_unlink` was called and returned 0. -/
theorem shared_mutex_destroy_ok (w : World) (m : shared_mutex) (f : DestroyFaults)
    (n : String) (hn : m.name = some n) (h : (shared_mutex_destroy w m f).2.2 = 0) :
    (shared_mutex_destroy w m f).1.names n = none ∧
      (shared_mutex_destroy w m f).2.1 = none ∧
      ∃ e, (⟨.shm_unlink, 0, e⟩ : Call) ∈ (shared_mutex_destroy w m f).1.trace := by
  unfold shared_mutex_destroy at h ⊢
  simp only at h ⊢
  split at h
  · simp at h
  · rename_i h1
    simp only [h1, if_false]
    exact shared_mutex_destroy_unmap_ok _ _ f n hn h

/-! ## Sequences of calls -/

theorem pthread_mutex_lock_names (w : World) (p : Ptr) (self : Nat) (fault : Option Errno)
    (l : World × Int) (h : pthread_mutex_lock w p self fault = some l) :
    l.1.names = w.names := by
  unfold pthread_mutex_lock at h
  split at h
  · cases h; rfl
  · split at h
    · split at h <;> first | (cases h; rfl) | exact absurd h (by simp)
    · cases h; rfl

theorem pthread_mutex_consistent_names (w : World) (p : Ptr) (self : Nat)
    (fault : Option Errno) : (pthread_mutex_consistent w p self fault).1.names = w.names := by
  unfold pthread_mutex_consistent
  split
  · rfl
  · split
    · split
      · split <;> rfl
      · rfl
    · rfl

theorem pthread_mutex_unlock_names (w : World) (p : Ptr) (self : Nat)
    (fault : Option Errno) : (pthread_mutex_unlock w p self fault).1.names = w.names := by
  unfold pthread_mutex_unlock
  split
  · rfl
  · split
    · split
      · split <;> rfl
      · split <;> rfl
      · rfl
      · rfl
    · rfl

theorem Step.run_names (w w1 : World) (mutex : shared_mutex) (s : Step)
    (h : s.run w mutex = some w1) : w1.names = w.names := by
  cases s with
  | lock self f =>
    simp only [Step.run, shared_mutex_lock] at h
    cases hl : pthread_mutex_lock w mutex.ptr self f.lock with
    | none => simp [hl] at h
    | some l =>
      have hn := pthread_mutex_lock_names w mutex.ptr self f.lock l hl
      simp only [hl] at h
      split at h
      · simp only [Option.map_some', Option.some.injEq] at h
        rw [← h, pthread_mutex_consistent_names, hn]
      · simp only [Option.map_some', Option.some.injEq] at h
        rw [← h, hn]
  | unlock self fault =>
    simp only [Step.run, shared_mutex_unlock, Option.some.injEq] at h
    rw [← h, pthread_mutex_unlock_names]

/-- Locks and unlocks through a handle leave the table of named segments as it was. -/
theorem runSteps_names (mutex : shared_mutex) (steps : List Step) :
    ∀ w w1 : World, runSteps w mutex steps = some w1 → w1.names = w.names := by
  induction steps with
  | nil =>
    intro w w1 h
    simp only [runSteps, Option.some.injEq] at h
    rw [h]
  | cons s rest ih =>
    intro w w1 h
    simp only [runSteps] at h
    cases hs : s.run w mutex with
    | none => simp [hs] at h
    | some w0 =>
      simp only [hs, Option.some_bind] at h
      rw [ih w0 w1 h, Step.run_names w w0 mutex s hs]

/-! ## Attaching and re-creating -/

theorem closeIf_frame (w : World) (mutex : shared_mutex) (cl : Option CloseFaults) :
    (closeIf w mutex cl).names = w.names ∧ (closeIf w mutex cl).objs = w.objs := by
  cases cl with
  | none => exact ⟨rfl, rfl⟩
  | some f => exact ⟨(shared_mutex_close_facts w mutex f).1, (shared_mutex_close_facts w mutex f).2.1⟩

/-- C2: when no segment named `name` exists and no error is injected, a first
`shared_mutex_init(name)` creates (`created = 1`); after any sequence of locks and unlocks
through that handle, and with or without a `shared_mutex_close` of it (whatever the close
returns), a second `shared_mutex_init(name)` attaches (`created = 0`), is mapped to the
same segment as the first handle was, makes no `pthread_mutex_init` call, and leaves the
mutex of every segment in the state it had before the second call. -/
theorem shared_mutex_init_twice (w : World) (name : String) (h : w.names name = none)
    (steps : List Step) (w2 : World)
    (hrun : runSteps (shared_mutex_init w name InitFaults.none).1
      (shared_mutex_init w name InitFaults.none).2 steps = some w2)
    (cl : Option CloseFaults) :
    (shared_mutex_init w name InitFaults.none).2.created = 1 ∧
    shared_mutex_is_valid (some (shared_mutex_init w name InitFaults.none).2) = true ∧
    (shared_mutex_init (closeIf w2 (shared_mutex_init w name InitFaults.none).2 cl) name
      InitFaults.none).2.created = 0 ∧
    shared_mutex_is_valid (some (shared_mutex_init
      (closeIf w2 (shared_mutex_init w name InitFaults.none).2 cl) name
      InitFaults.none).2) = true ∧
    (∃ id, (shared_mutex_init w name InitFaults.none).1.deref
          (shared_mutex_init w name InitFaults.none).2.ptr = some id ∧
        (shared_mutex_init (closeIf w2 (shared_mutex_init w name InitFaults.none).2 cl) name
            InitFaults.none).1.deref
          (shared_mutex_init (closeIf w2 (shared_mutex_init w name InitFaults.none).2 cl) name
            InitFaults.none).2.ptr = some id ∧
        (shared_mutex_init (closeIf w2 (shared_mutex_init w name InitFaults.none).2 cl) name
            InitFaults.none).1.mutexAt
          (shared_mutex_init (closeIf w2 (shared_mutex_init w name InitFaults.none).2 cl) name
            InitFaults.none).2.ptr = some (w2.objs id).mtx) ∧
    (∀ c ∈ (shared_mutex_init (closeIf w2 (shared_mutex_init w name InitFaults.none).2 cl) name
          InitFaults.none).1.callsSince
        (closeIf w2 (shared_mutex_init w name InitFaults.none).2 cl),
      c.fn ≠ .pthread_mutex_init) ∧
    (∀ i, ((shared_mutex_init (closeIf w2 (shared_mutex_init w name InitFaults.none).2 cl) name
        InitFaults.none).1.objs i).mtx = (w2.objs i).mtx) := by
  obtain ⟨c1, c2, c3, -, -⟩ := shared_mutex_init_create w name h
  obtain ⟨k1, k2⟩ := closeIf_frame w2 (shared_mutex_init w name InitFaults.none).2 cl
  have hn2 : (closeIf w2 (shared_mutex_init w name InitFaults.none).2 cl).names name =
      some w.nextObj := by
    rw [k1, runSteps_names _ steps _ _ hrun, c2]
  obtain ⟨a1, a2, -, a4, a5, a6⟩ := shared_mutex_init_attach_mutex _ name _ hn2
  obtain ⟨-, -, -, b4, -⟩ := shared_mutex_init_attach _ name _ hn2
  refine ⟨by rw [c1], ?_, a1, a2, ⟨w.nextObj, ?_, a4, by rw [a5, k2]⟩, a6, ?_⟩
  · rw [c1]
    simp [shared_mutex_is_valid]
    omega
  · rw [c1]
    simpa [World.deref] using c3
  · intro i
    rw [b4 i, k2]

/-- C2, at a concrete input: on the empty platform thread 7 creates the mutex and locks
it, the handle is closed, and a second `shared_mutex_init` attaches with `created = 0` and
finds the mutex locked by thread 7. -/
theorem shared_mutex_init_twice_witness :
    World.empty.names "/m" = none ∧
      (shared_mutex_init World.empty "/m" InitFaults.none).2.created = 1 ∧
      ∃ w2, runSteps (shared_mutex_init World.empty "/m" InitFaults.none).1
          (shared_mutex_init World.empty "/m" InitFaults.none).2 [.lock 7 LockFaults.none] =
          some w2 ∧
        (shared_mutex_init
          (closeIf w2 (shared_mutex_init World.empty "/m" InitFaults.none).2
            (some CloseFaults.none)) "/m" InitFaults.none).2.created = 0 ∧
        (shared_mutex_init
            (closeIf w2 (shared_mutex_init World.empty "/m" InitFaults.none).2
              (some CloseFaults.none)) "/m" InitFaults.none).1.mutexAt
          (shared_mutex_init
            (closeIf w2 (shared_mutex_init World.empty "/m" InitFaults.none).2
              (some CloseFaults.none)) "/m" InitFaults.none).2.ptr =
          some (.live true true (.locked 7)) := by
  refine ⟨rfl, by decide, _, rfl, ?_⟩
  have h := shared_mutex_init_twice World.empty "/m" rfl [.lock 7 LockFaults.none] _ rfl
    (some CloseFaults.none)
  refine ⟨h.2.2.1, ?_⟩
  obtain ⟨id, h1, -, h3⟩ := h.2.2.2.2.1
  have hid : id = 0 := by
    have : (shared_mutex_init World.empty "/m" InitFaults.none).1.deref
        (shared_mutex_init World.empty "/m" InitFaults.none).2.ptr = some 0 := by decide
    rw [this] at h1
    exact (Option.some.inj h1).symm
  subst hid
  exact h3

/-- With no injected error the handle returned by `shared_mutex_init` carries the name
and is valid. -/
theorem shared_mutex_init_ok (w : World) (name : String) :
    (shared_mutex_init w name InitFaults.none).2.name = some name ∧
      shared_mutex_is_valid (some (shared_mutex_init w name InitFaults.none).2) = true := by
  cases hn : w.names name with
  | none =>
    rw [(shared_mutex_init_create w name hn).1]
    simp [shared_mutex_is_valid]
    omega
  | some id =>
    rw [(shared_mutex_init_attach w name id hn).1]
    simp [shared_mutex_is_valid]
    omega

/-- C3: with no injected error in the two initialisations, let the handle of a first
`shared_mutex_init(name)` be destroyed on a platform `w1` (whatever state the platform and
the lock are in by then).  When `shared_mutex_destroy` returns 0, the handle is freed,
`shm_unlink` was called and returned 0, no segment named `name` exists any more, and a
second `shared_mutex_init(name)` returns a valid handle with `created = 1` whose mutex is
freshly constructed: process-shared, robust and unlocked. -/
theorem shared_mutex_destroy_then_init (w : World) (name : String) (w1 : World)
    (f : DestroyFaults)
    (hd : (shared_mutex_destroy w1 (shared_mutex_init w name InitFaults.none).2 f).2.2 = 0) :
    shared_mutex_is_valid (some (shared_mutex_init w name InitFaults.none).2) = true ∧
    (shared_mutex_destroy w1 (shared_mutex_init w name InitFaults.none).2 f).2.1 = none ∧
    (∃ e, (⟨.shm_unlink, 0, e⟩ : Call) ∈
      (shared_mutex_destroy w1 (shared_mutex_init w name InitFaults.none).2 f).1.trace) ∧
    (shared_mutex_destroy w1 (shared_mutex_init w name InitFaults.none).2 f).1.names name =
      none ∧
    (shared_mutex_init
      (shared_mutex_destroy w1 (shared_mutex_init w name InitFaults.none).2 f).1 name
      InitFaults.none).2.created = 1 ∧
    shared_mutex_is_valid (some (shared_mutex_init
      (shared_mutex_destroy w1 (shared_mutex_init w name InitFaults.none).2 f).1 name
      InitFaults.none).2) = true ∧
    (shared_mutex_init
        (shared_mutex_destroy w1 (shared_mutex_init w name InitFaults.none).2 f).1 name
        InitFaults.none).1.mutexAt
      (shared_mutex_init
        (shared_mutex_destroy w1 (shared_mutex_init w name InitFaults.none).2 f).1 name
        InitFaults.none).2.ptr = some (.live true true .unlocked) := by
  obtain ⟨hname, hv⟩ := shared_mutex_init_ok w name
  obtain ⟨d1, d2, d3⟩ := shared_mutex_destroy_ok w1 _ f name hname hd
  obtain ⟨c1, -, c3, c4, -⟩ := shared_mutex_init_create _ name d1
  refine ⟨hv, d2, d3, d1, by rw [c1], (shared_mutex_init_ok _ name).2, ?_⟩
  rw [c1]
  simp [World.mutexAt, World.deref, c3, c4]

/-- C3, at a concrete input: on the empty platform the mutex is created, thread 7 holds
it, and the handle is destroyed with no injected error; the destroy returns 0 and the
second `shared_mutex_init` creates an unlocked mutex. -/
theorem shared_mutex_destroy_then_init_witness :
    (shared_mutex_destroy
        ((shared_mutex_init World.empty "/m" InitFaults.none).1.setMutex 0
          (.live true true (.locked 7)))
        (shared_mutex_init World.empty "/m" InitFaults.none).2 DestroyFaults.none).2.2 = 0 ∧
      (shared_mutex_init
        (shared_mutex_destroy
          ((shared_mutex_init World.empty "/m" InitFaults.none).1.setMutex 0
            (.live true true (.locked 7)))
          (shared_mutex_init World.empty "/m" InitFaults.none).2 DestroyFaults.none).1 "/m"
        InitFaults.none).2.created = 1 ∧
      (shared_mutex_init
          (shared_mutex_destroy
            ((shared_mutex_init World.empty "/m" InitFaults.none).1.setMutex 0
              (.live true true (.locked 7)))
            (shared_mutex_init World.empty "/m" InitFaults.none).2 DestroyFaults.none).1 "/m"
          InitFaults.none).1.mutexAt
        (shared_mutex_init
          (shared_mutex_destroy
            ((shared_mutex_init World.empty "/m" InitFaults.none).1.setMutex 0
              (.live true true (.locked 7)))
            (shared_mutex_init World.empty "/m" InitFaults.none).2 DestroyFaults.none).1 "/m"
          InitFaults.none).2.ptr = some (.live true true .unlocked) :=
  ⟨by decide,
    (shared_mutex_destroy_then_init World.empty "/m"
      ((shared_mutex_init World.empty "/m" InitFaults.none).1.setMutex 0
        (.live true true (.locked 7))) DestroyFaults.none (by decide)).2.2.2.2.1,
    (shared_mutex_destroy_then_init World.empty "/m"
      ((shared_mutex_init World.empty "/m" InitFaults.none).1.setMutex 0
        (.live true true (.locked 7))) DestroyFaults.none (by decide)).2.2.2.2.2.2⟩

/-! ## The wrapper -/

/-- C10, at the failing inputs.  (1) `close()` followed by the destructor: the member
releases the handle at address 1, and the destructor then calls `shared_mutex_close` with
the null pointer.  (2) `destory()` followed by the destructor: the member releases
the handle, and the destructor then calls `shared_mutex_close` on the freed handle. -/
theorem SharedMutex.teardown_after_release :
    SharedMutex.life "/m" InitFaults.none [.close CloseFaults.none] CloseFaults.none =
        some ([⟨.shared_mutex_close, some 1, true⟩, ⟨.shared_mutex_close, none, false⟩], true) ∧
      SharedMutex.life "/m" InitFaults.none [.destory DestroyFaults.none] CloseFaults.none =
        some ([⟨.shared_mutex_destroy, some 1, true⟩, ⟨.shared_mutex_close, some 1, false⟩],
          true) := by
  decide

/-! ## Mutual exclusion -/

theorem World.deref_of_maps (w1 w : World) (p : Ptr) (h : w1.maps = w.maps) :
    w1.deref p = w.deref p := by
  cases p <;> simp [World.deref, h]

theorem pthread_mutex_lock_maps (w : World) (p : Ptr) (self : Nat) (fault : Option Errno)
    (l : World × Int) (h : pthread_mutex_lock w p self fault = some l) :
    l.1.maps = w.maps := by
  unfold pthread_mutex_lock at h
  split at h
  · cases h; rfl
  · split at h
    · split at h <;> first | (cases h; rfl) | exact absurd h (by simp)
    · cases h; rfl

theorem pthread_mutex_consistent_maps (w : World) (p : Ptr) (self : Nat)
    (fault : Option Errno) : (pthread_mutex_consistent w p self fault).1.maps = w.maps := by
  unfold pthread_mutex_consistent
  split
  · rfl
  · split
    · split
      · split <;> rfl
      · rfl
    · rfl

theorem pthread_mutex_unlock_maps (w : World) (p : Ptr) (self : Nat)
    (fault : Option Errno) : (pthread_mutex_unlock w p self fault).1.maps = w.maps := by
  unfold pthread_mutex_unlock
  split
  · rfl
  · split
    · split
      · split <;> rfl
      · split <;> rfl
      · rfl
      · rfl
    · rfl

/-- On a mutex that some thread holds, `pthread_mutex_lock` returns only with an error,
and leaves every segment as it was. -/
theorem pthread_mutex_lock_held (w : World) (p : Ptr) (self : Nat) (fault : Option Errno)
    (id : Nat) (ps rb : Bool) (o : Nat) (hd : w.deref p = some id)
    (hm : (w.objs id).mtx = .live ps rb (.locked o)) (l : World × Int)
    (h : pthread_mutex_lock w p self fault = some l) : l.2 ≠ 0 ∧ l.1.objs = w.objs := by
  cases fault with
  | some e =>
    simp only [pthread_mutex_lock, Option.some.injEq] at h
    subst h
    simp [World.log]
  | none => simp [pthread_mutex_lock, hd, hm] at h

/-- On a mutex that some thread holds, `pthread_mutex_lock` with no injected error does
not return. -/
theorem pthread_mutex_lock_blocks (w : World) (p : Ptr) (self : Nat)
    (id : Nat) (ps rb : Bool) (o : Nat) (hd : w.deref p = some id)
    (hm : (w.objs id).mtx = .live ps rb (.locked o)) :
    pthread_mutex_lock w p self none = none := by
  simp [pthread_mutex_lock, hd, hm]

/-- On a mutex that some thread holds, `pthread_mutex_consistent` returns an error and
leaves every segment as it was. -/
theorem pthread_mutex_consistent_held (w : World) (p : Ptr) (self : Nat)
    (fault : Option Errno) (id : Nat) (ps rb : Bool) (o : Nat) (hd : w.deref p = some id)
    (hm : (w.objs id).mtx = .live ps rb (.locked o)) :
    (pthread_mutex_consistent w p self fault).2 ≠ 0 ∧
      (pthread_mutex_consistent w p self fault).1.objs = w.objs := by
  cases fault with
  | some e => simp [pthread_mutex_consistent, World.log]
  | none => simp [pthread_mutex_consistent, hd, hm, World.log, EINVAL]

theorem shared_mutex_lock_maps (w : World) (m : shared_mutex) (self : Nat) (f : LockFaults)
    (r : World × Int) (h : shared_mutex_lock w m self f = some r) : r.1.maps = w.maps := by
  unfold shared_mutex_lock at h
  cases hl : pthread_mutex_lock w m.ptr self f.lock with
  | none => simp [hl] at h
  | some l =>
    have hlm := pthread_mutex_lock_maps w m.ptr self f.lock l hl
    simp only [hl] at h
    split at h
    · simp only [Option.some.injEq] at h
      rw [← h, pthread_mutex_consistent_maps, hlm]
    · simp only [Option.some.injEq] at h
      rw [← h, hlm]

/-- On a mutex that some thread holds, `shared_mutex_lock` returns only with a non-zero
status, and leaves every segment as it was. -/
theorem shared_mutex_lock_held (w : World) (m : shared_mutex) (self : Nat) (f : LockFaults)
    (id : Nat) (ps rb : Bool) (o : Nat) (hd : w.deref m.ptr = some id)
    (hm : (w.objs id).mtx = .live ps rb (.locked o)) (r : World × Int)
    (h : shared_mutex_lock w m self f = some r) : r.2 ≠ 0 ∧ r.1.objs = w.objs := by
  unfold shared_mutex_lock at h
  cases hl : pthread_mutex_lock w m.ptr self f.lock with
  | none => simp [hl] at h
  | some l =>
    obtain ⟨hl0, hlo⟩ := pthread_mutex_lock_held w m.ptr self f.lock id ps rb o hd hm l hl
    have hlm := pthread_mutex_lock_maps w m.ptr self f.lock l hl
    simp only [hl] at h
    split at h
    · simp only [Option.some.injEq] at h
      have hd1 : l.1.deref m.ptr = some id := by rw [World.deref_of_maps _ _ _ hlm, hd]
      have hm1 : (l.1.objs id).mtx = .live ps rb (.locked o) := by rw [hlo, hm]
      obtain ⟨c0, co⟩ :=
        pthread_mutex_consistent_held l.1 m.ptr self f.consistent id ps rb o hd1 hm1
      rw [← h]
      exact ⟨c0, co.trans hlo⟩
    · simp only [Option.some.injEq] at h
      rw [← h]
      exact ⟨hl0, hlo⟩

/-- When `shared_mutex_lock` returns 0, the caller holds the mutex of the segment. -/
theorem shared_mutex_lock_granted (w : World) (m : shared_mutex) (self : Nat)
    (f : LockFaults) (id : Nat) (hd : w.deref m.ptr = some id) (w1 : World)
    (h : shared_mutex_lock w m self f = some (w1, 0)) :
    ∃ ps rb, (w1.objs id).mtx = .live ps rb (.locked self) := by
  have hmaps := shared_mutex_lock_maps w m self f _ h
  have hd1 : w1.deref m.ptr = some id := by
    rw [World.deref_of_maps _ _ _ hmaps, hd]
  have key : ∃ ps rb, w1.mutexAt m.ptr = some (.live ps rb (.locked self)) := by
    unfold shared_mutex_lock at h
    cases hl : pthread_mutex_lock w m.ptr self f.lock with
    | none => simp [hl] at h
    | some l =>
      obtain ⟨-, hheld⟩ := pthread_mutex_lock_facts w m.ptr self f.lock l hl
      simp only [hl] at h
      split at h
      · simp only [Option.some.injEq] at h
        obtain ⟨-, hheld2⟩ := pthread_mutex_consistent_facts l.1 m.ptr self f.consistent
        rw [h] at hheld2
        exact hheld2 rfl
      · simp only [Option.some.injEq] at h
        subst h
        exact hheld rfl
  obtain ⟨ps, rb, hk⟩ := key
  refine ⟨ps, rb, ?_⟩
  simpa [World.mutexAt, hd1] using hk

/-- On a mutex held by thread `o`, `shared_mutex_unlock` returns 0 only for `o`, and then
no thread holds the mutex; when it returns an error every segment is as it was. -/
theorem shared_mutex_unlock_held (w : World) (m : shared_mutex) (self : Nat)
    (fault : Option Errno) (id : Nat) (ps rb : Bool) (o : Nat)
    (hd : w.deref m.ptr = some id) (hm : (w.objs id).mtx = .live ps rb (.locked o)) :
    ((shared_mutex_unlock w m self fault).2 = 0 → o = self) ∧
      ((shared_mutex_unlock w m self fault).2 ≠ 0 →
        (shared_mutex_unlock w m self fault).1.objs = w.objs) := by
  cases fault with
  | some e => simp [shared_mutex_unlock, pthread_mutex_unlock, World.log]
  | none =>
    by_cases ho : o = self
    · simp [shared_mutex_unlock, pthread_mutex_unlock, hd, hm, ho, World.log]
    · simp [shared_mutex_unlock, pthread_mutex_unlock, hd, hm, ho, World.log, EPERM]

/-- The termination of a thread leaves a mutex held by another thread as it was. -/
theorem World.threadDies_held (w : World) (self id : Nat) (ps rb : Bool) (o : Nat)
    (hm : (w.objs id).mtx = .live ps rb (.locked o)) (ho : o ≠ self) :
    ((w.threadDies self).objs id).mtx = .live ps rb (.locked o) := by
  cases rb <;> simp [World.threadDies, PMutex.ownerDied, hm, ho]

/-- One event keeps the handles attached and the holders in step with the mutex: after
it both handles are still mapped to the segment, there is at most one holder, and a
holder is the thread the mutex is locked by. -/
theorem Event.run_holders (hA hB : shared_mutex) (id : Nat) (e : Event) (w : World)
    (hs : List (Bool × Nat)) (hdA : w.deref hA.ptr = some id)
    (hdB : w.deref hB.ptr = some id) (hlen : hs.length ≤ 1)
    (hheld : ∀ x ∈ hs, ∃ ps rb, (w.objs id).mtx = .live ps rb (.locked x.2)) :
    (e.run w hA hB).1.deref hA.ptr = some id ∧
      (e.run w hA hB).1.deref hB.ptr = some id ∧
      (holdStep hs e (e.run w hA hB).2).length ≤ 1 ∧
      ∀ x ∈ holdStep hs e (e.run w hA hB).2,
        ∃ ps rb, ((e.run w hA hB).1.objs id).mtx = .live ps rb (.locked x.2) := by
  cases e with
  | lock viaB self f =>
    have hd : w.deref (cond viaB hB hA).ptr = some id := by
      cases viaB
      · exact hdA
      · exact hdB
    cases hr : shared_mutex_lock w (cond viaB hB hA) self f with
    | none =>
      simp only [Event.run, hr, holdStep]
      exact ⟨hdA, hdB, hlen, hheld⟩
    | some r =>
      have hmaps := shared_mutex_lock_maps w _ self f r hr
      simp only [Event.run, hr, holdStep]
      refine ⟨by rw [World.deref_of_maps _ _ _ hmaps, hdA],
        by rw [World.deref_of_maps _ _ _ hmaps, hdB], ?_⟩
      by_cases h0 : r.2 = 0
      · have hnil : hs = [] := by
          cases hs with
          | nil => rfl
          | cons x rest =>
            obtain ⟨ps, rb, hx⟩ := hheld x (List.mem_cons_self _ _)
            exact absurd h0 (shared_mutex_lock_held w _ self f id ps rb x.2 hd hx r hr).1
        have hr0 : shared_mutex_lock w (cond viaB hB hA) self f = some (r.1, 0) := by
          rw [hr, ← h0]
        obtain ⟨ps, rb, hg⟩ := shared_mutex_lock_granted w _ self f id hd r.1 hr0
        subst hnil
        simp only [h0, if_true, List.nil_append, List.length_singleton, le_refl,
          List.mem_singleton, true_and]
        rintro x rfl
        exact ⟨ps, rb, hg⟩
      · simp only [h0, if_false]
        refine ⟨hlen, fun x hx => ?_⟩
        obtain ⟨ps, rb, hm⟩ := hheld x hx
        refine ⟨ps, rb, ?_⟩
        rw [(shared_mutex_lock_held w _ self f id ps rb x.2 hd hm r hr).2, hm]
  | unlock viaB self fault =>
    have hd : w.deref (cond viaB hB hA).ptr = some id := by
      cases viaB
      · exact hdA
      · exact hdB
    have hmaps : (shared_mutex_unlock w (cond viaB hB hA) self fault).1.maps = w.maps :=
      pthread_mutex_unlock_maps w _ self fault
    simp only [Event.run, holdStep]
    refine ⟨by rw [World.deref_of_maps _ _ _ hmaps, hdA],
      by rw [World.deref_of_maps _ _ _ hmaps, hdB], ?_⟩
    by_cases h0 : (shared_mutex_unlock w (cond viaB hB hA) self fault).2 = 0
    · simp only [h0, if_true]
      refine ⟨le_trans (List.length_filter_le _ _) hlen, fun x hx => ?_⟩
      obtain ⟨hxs, hne⟩ := List.mem_filter.1 hx
      obtain ⟨ps, rb, hm⟩ := hheld x hxs
      have := (shared_mutex_unlock_held w _ self fault id ps rb x.2 hd hm).1 h0
      simp [this] at hne
    · simp only [h0, if_false]
      refine ⟨hlen, fun x hx => ?_⟩
      obtain ⟨ps, rb, hm⟩ := hheld x hx
      refine ⟨ps, rb, ?_⟩
      rw [(shared_mutex_unlock_held w _ self fault id ps rb x.2 hd hm).2 h0, hm]
  | die self =>
    simp only [Event.run, holdStep]
    refine ⟨by rw [World.deref_of_maps (w.threadDies self) w _ rfl, hdA],
      by rw [World.deref_of_maps (w.threadDies self) w _ rfl, hdB],
      le_trans (List.length_filter_le _ _) hlen, fun x hx => ?_⟩
    obtain ⟨hxs, hne⟩ := List.mem_filter.1 hx
    obtain ⟨ps, rb, hm⟩ := hheld x hxs
    exact ⟨ps, rb, World.threadDies_held w self id ps rb x.2 hm (by simpa using hne)⟩

/-- An interleaving keeps the handles attached and the holders in step with the mutex. -/
theorem interleave_holders (hA hB : shared_mutex) (id : Nat) (events : List Event) :
    ∀ (w : World) (hs : List (Bool × Nat)), w.deref hA.ptr = some id →
      w.deref hB.ptr = some id → hs.length ≤ 1 →
      (∀ x ∈ hs, ∃ ps rb, (w.objs id).mtx = .live ps rb (.locked x.2)) →
      (interleave w hA hB hs events).1.deref hA.ptr = some id ∧
        (interleave w hA hB hs events).1.deref hB.ptr = some id ∧
        (interleave w hA hB hs events).2.length ≤ 1 ∧
        ∀ x ∈ (interleave w hA hB hs events).2,
          ∃ ps rb, ((interleave w hA hB hs events).1.objs id).mtx =
            .live ps rb (.locked x.2) := by
  induction events with
  | nil =>
    intro w hs hdA hdB hlen hheld
    exact ⟨hdA, hdB, hlen, hheld⟩
  | cons e rest ih =>
    intro w hs hdA hdB hlen hheld
    obtain ⟨a, b, c, d⟩ := Event.run_holders hA hB id e w hs hdA hdB hlen hheld
    exact ih _ _ a b c d

/-- C5: let two handles be mapped to the same segment.  After every interleaving of
`shared_mutex_lock` and `shared_mutex_unlock` calls made through them by any threads, and
of thread terminations, at most one caller holds the lock (a caller holds it from a lock
that returned 0 until its unlock returns 0 or it terminates), and the holder is the thread
the mutex is locked by.  A lock is granted (returns 0) only at a moment when nobody holds
and the mutex is locked by no thread: the earlier holder unlocked or terminated; while
somebody holds, a lock with no injected error does not return. -/
theorem shared_mutex_mutual_exclusion (w : World) (hA hB : shared_mutex) (id : Nat)
    (hdA : w.deref hA.ptr = some id) (hdB : w.deref hB.ptr = some id)
    (events : List Event) :
    (interleave w hA hB [] events).2.length ≤ 1 ∧
    (∀ x ∈ (interleave w hA hB [] events).2,
      ∃ ps rb, ((interleave w hA hB [] events).1.objs id).mtx = .live ps rb (.locked x.2)) ∧
    (∀ viaB self f w1,
      shared_mutex_lock (interleave w hA hB [] events).1 (cond viaB hB hA) self f =
        some (w1, 0) →
      (interleave w hA hB [] events).2 = [] ∧
        ∀ ps rb o, ((interleave w hA hB [] events).1.objs id).mtx ≠
          .live ps rb (.locked o)) ∧
    (∀ x ∈ (interleave w hA hB [] events).2, ∀ viaB self f, f.lock = none →
      shared_mutex_lock (interleave w hA hB [] events).1 (cond viaB hB hA) self f = none) := by
  obtain ⟨a, b, c, d⟩ := interleave_holders hA hB id events w [] hdA hdB (by simp)
    (by simp)
  have hd : ∀ viaB : Bool,
      (interleave w hA hB [] events).1.deref (cond viaB hB hA).ptr = some id := by
    intro viaB
    cases viaB
    · exact a
    · exact b
  refine ⟨c, d, ?_, ?_⟩
  · intro viaB self f w1 hl
    have hfree : ∀ ps rb o, ((interleave w hA hB [] events).1.objs id).mtx ≠
        .live ps rb (.locked o) := fun ps rb o hm =>
      absurd rfl (shared_mutex_lock_held _ _ self f id ps rb o (hd viaB) hm _ hl).1
    refine ⟨?_, hfree⟩
    cases hh : (interleave w hA hB [] events).2 with
    | nil => rfl
    | cons x rest =>
      obtain ⟨ps, rb, hm⟩ := d x (by rw [hh]; exact List.mem_cons_self _ _)
      exact absurd hm (hfree ps rb x.2)
  · intro x hx viaB self f hf
    obtain ⟨ps, rb, hm⟩ := d x hx
    simp [shared_mutex_lock, hf,
      pthread_mutex_lock_blocks _ _ self id ps rb x.2 (hd viaB) hm]

/-- C5, at a concrete input: two handles `A` and `B` are initialised on the empty
platform.  Thread 1 locks through `A` and holds; the lock of thread 2 through `B` does
not return; after thread 1 unlocks, thread 2 is granted the lock and is the only
holder. -/
theorem shared_mutex_mutual_exclusion_witness :
    (interleave
        (shared_mutex_init (shared_mutex_init World.empty "/m" InitFaults.none).1 "/m"
          InitFaults.none).1
        (shared_mutex_init World.empty "/m" InitFaults.none).2
        (shared_mutex_init (shared_mutex_init World.empty "/m" InitFaults.none).1 "/m"
          InitFaults.none).2 []
        [.lock false 1 LockFaults.none, .lock true 2 LockFaults.none]).2 = [(false, 1)] ∧
      (interleave
        (shared_mutex_init (shared_mutex_init World.empty "/m" InitFaults.none).1 "/m"
          InitFaults.none).1
        (shared_mutex_init World.empty "/m" InitFaults.none).2
        (shared_mutex_init (shared_mutex_init World.empty "/m" InitFaults.none).1 "/m"
          InitFaults.none).2 []
        [.lock false 1 LockFaults.none, .lock true 2 LockFaults.none,
          .unlock false 1 none, .lock true 2 LockFaults.none]).2 = [(true, 2)] ∧
      (interleave
        (shared_mutex_init (shared_mutex_init World.empty "/m" InitFaults.none).1 "/m"
          InitFaults.none).1
        (shared_mutex_init World.empty "/m" InitFaults.none).2
        (shared_mutex_init (shared_mutex_init World.empty "/m" InitFaults.none).1 "/m"
          InitFaults.none).2 []
        [.lock false 1 LockFaults.none, .lock true 2 LockFaults.none,
          .unlock false 1 none, .lock true 2 LockFaults.none]).2.length ≤ 1 :=
  ⟨by decide, by decide,
    (shared_mutex_mutual_exclusion
      (shared_mutex_init (shared_mutex_init World.empty "/m" InitFaults.none).1 "/m"
        InitFaults.none).1
      (shared_mutex_init World.empty "/m" InitFaults.none).2
      (shared_mutex_init (shared_mutex_init World.empty "/m" InitFaults.none).1 "/m"
        InitFaults.none).2 0 (by decide) (by decide)
      [.lock false 1 LockFaults.none, .lock true 2 LockFaults.none,
        .unlock false 1 none, .lock true 2 LockFaults.none]).1⟩

end Shm
